/-
  Verification of the BlockCoop admin blockchain analytics service
  (src/admin/services/blockchain_service.py) against its specification.

  Shallow embedding conventions:
  * Addresses are modelled as natural numbers (the 160-bit value of the hex
    address).  `Web3.to_checksum_address` only changes the letter case of the
    hex string, so it is the identity on the numeric value.
  * A raw log's `data` field is modelled as the list of hex nibbles (each < 16)
    following the `0x` prefix, exactly as the Python code slices the hex
    string; `topics` are the 32-byte words as natural numbers.
  * Remote RPC calls are modelled by a `ChainEnv` record of oracles.  A call
    that can raise is an `Except String` value; Python's `try/except`
    boundaries become `match`es on those values.
  * Monetary normalisation `raw / 10 ** decimals` is modelled in ℚ.
  * Python's `max(0, a - b)` on machine-unbounded ints equals truncated
    subtraction `a - b` on ℕ for the non-negative inputs used here.
-/
import Mathlib

namespace BlockCoop

/-- A raw ledger log event: 32-byte topic words, hex-nibble data payload,
and the block number, as consumed by every aggregator. -/
structure RawLog where
  topics : List Nat
  data : List Nat
  blockNumber : Nat
  deriving Repr, DecidableEq

/-- Value of a big-endian hex-digit string (`int(s, 16)` in the source). -/
def hexVal (nibbles : List Nat) : Nat :=
  nibbles.foldl (fun acc d => acc * 16 + d) 0

/-- `int(data_hex[2:66], 16) if data_hex and data_hex != '0x' else 0`:
the first 32 bytes (64 hex digits) of the data payload, or 0 when the
payload is empty. -/
def dataAmount (data : List Nat) : Nat :=
  if data = [] then 0 else hexVal (data.take 64)

/-- `'0x' + topic.hex()[-40:]`: the low 20 bytes of a 32-byte topic word,
read as an address. -/
def addrOfTopic (t : Nat) : Nat :=
  t % 16 ^ 40

/-- `_normalize_amount` / the inline `raw / float(10 ** decimals)`. -/
def normalizeAmount (amount : Nat) (decimals : Nat) : ℚ :=
  (amount : ℚ) / 10 ^ decimals

/-- A transaction inside a block, as consumed by the gas-spend scanner. -/
structure Tx where
  fromAddr : Option Nat
  hash : Nat
  gasPrice : Nat
  deriving Repr, DecidableEq

/-- A transaction receipt, as consumed by the gas-spend scanner. -/
structure Receipt where
  gasUsed : Nat
  effectiveGasPrice : Option Nat
  deriving Repr, DecidableEq

/-- The environment of remote state and configuration the service reads:
contract addresses resolved at startup (`self.contracts.get(...)`), the
environment-variable pair overrides, and one oracle per kind of RPC call.
Fallible RPC calls are `Except String` values; `keccak` models the
deterministic topic-hash transform `self.w3.keccak(text=...)`. -/
structure ChainEnv where
  packageManager : Option Nat
  blocksToken : Option Nat
  usdt : Option Nat
  treasury : Option Nat
  factory : Option Nat
  pairUsdtOverride : Option Nat
  pairBnbOverride : Option Nat
  connected : Bool
  blockNumber : Except String Nat
  keccak : String → Nat
  getLogs : Nat → List Nat → Nat → Option Nat → Except String (List RawLog)
  getPair : Nat → Nat → Except String Nat
  token0 : Nat → Except String Nat
  token1 : Nat → Except String Nat
  getReserves : Nat → Except String (Nat × Nat)
  symbolOf : Nat → Except String String
  decimalsOf : Nat → Except String Nat
  usdtDecimalsCall : Except String Nat
  blocksDecimalsCall : Except String Nat
  allPackageIds : List Nat
  getBlock : Nat → Except String (List Tx)
  getReceipt : Nat → Except String Receipt

/-- `usdt_dec = 18; try: usdt_dec = ...decimals().call(); except: pass` —
a decimals RPC call with fallback to 18. -/
def decimalsOr18 (call : Except String Nat) : Nat :=
  match call with
  | .ok d => d
  | .error _ => 18

/- ### Referral payments (`get_referral_payments`) -/

/-- One decoded `ReferralPaid` event as appended to the `events` list. -/
structure RefEvent where
  referrer : Nat
  buyer : Nat
  reward : Nat
  blockNumber : Nat
  deriving Repr, DecidableEq

/-- `agg = by_ref.get(key) or {'reward': 0, 'count': 0}; agg['reward'] += amount;
agg['count'] += 1; by_ref[key] = agg` — update an insertion-ordered mapping
in place, appending a fresh entry for an unseen referrer. -/
def updateRef : List (Nat × Nat × Nat) → Nat → Nat → List (Nat × Nat × Nat)
  | [], r, a => [(r, a, 1)]
  | (k, rw, c) :: rest, r, a =>
      if k = r then (k, rw + a, c + 1) :: rest
      else (k, rw, c) :: updateRef rest r a

/-- The per-log step of the `get_referral_payments` fold: skip logs with
fewer than three topics, otherwise decode referrer/buyer from topics and
the reward from the first 32 data bytes, append the event and update the
per-referrer accumulator. -/
def refStep (acc : List RefEvent × List (Nat × Nat × Nat)) (lg : RawLog) :
    List RefEvent × List (Nat × Nat × Nat) :=
  match lg.topics with
  | _ :: t1 :: t2 :: _ =>
      let ref := addrOfTopic t1
      let buyer := addrOfTopic t2
      let amount := dataAmount lg.data
      (acc.1 ++ [⟨ref, buyer, amount, lg.blockNumber⟩], updateRef acc.2 ref amount)
  | _ => acc

/-- The successful return shape of `get_referral_payments`.  The early
"contract unavailable" return carries no `decimals` key, hence the
`Option`. -/
structure RefOk where
  total : ℚ
  events : List RefEvent
  byReferrer : List (Nat × ℚ × Nat)
  decimals : Option Nat
  deriving Repr, DecidableEq

/-- Result of `get_referral_payments`: either the aggregate dict or the
`{'error': str(e)}` marker produced by the enclosing `except`. -/
inductive RefResult where
  | ok (r : RefOk)
  | err (msg : String)
  deriving Repr, DecidableEq

/-- `get_referral_payments(from_block, to_block)`: query `ReferralPaid`
logs for the package manager and aggregate rewards by referrer, then
normalize by the BLOCKS token decimals (fallback 18). -/
def getReferralPayments (env : ChainEnv) (fromBlock : Nat) (toBlock : Option Nat) :
    RefResult :=
  match env.packageManager with
  | none => .ok { total := 0, events := [], byReferrer := [], decimals := none }
  | some pkgAddr =>
    let topic := env.keccak "ReferralPaid(address,address,uint256)"
    match env.getLogs pkgAddr [topic] fromBlock toBlock with
    | .error e => .err e
    | .ok logs =>
      let folded := logs.foldl refStep ([], [])
      let events := folded.1
      let byRef := folded.2
      let blocksDec := decimalsOr18 env.blocksDecimalsCall
      let totalNorm : ℚ :=
        if events = [] then 0
        else ((events.map RefEvent.reward).sum : ℚ) / 10 ^ blocksDec
      let byRefNorm := byRef.map (fun kv =>
        (kv.1, ((kv.2.1 : ℚ) / 10 ^ blocksDec, kv.2.2)))
      .ok { total := totalNorm, events := events, byReferrer := byRefNorm,
            decimals := some blocksDec }

/- ### Taxes collected (`get_taxes_collected`) -/

/-- One decoded `TaxApplied` event; `recipient` is `None` when the log has
at most two topics. -/
structure TaxEvent where
  recipient : Option Nat
  amount : Nat
  blockNumber : Nat
  deriving Repr, DecidableEq

/-- The successful return shape of `get_taxes_collected`; the early
"contract unavailable" return carries no `decimals` key. -/
structure TaxOk where
  total_usdt : ℚ
  events : List TaxEvent
  decimals : Option Nat
  deriving Repr, DecidableEq

/-- Result of `get_taxes_collected`. -/
inductive TaxResult where
  | ok (r : TaxOk)
  | err (msg : String)
  deriving Repr, DecidableEq

/-- The per-log step of `get_taxes_collected`: every log is folded —
recipient from the third topic when present, amount from the first 32
data bytes (0 when the payload is empty). -/
def taxStep (acc : List TaxEvent × Nat) (lg : RawLog) : List TaxEvent × Nat :=
  let recipient := (lg.topics.get? 2).map addrOfTopic
  let amount := dataAmount lg.data
  (acc.1 ++ [⟨recipient, amount, lg.blockNumber⟩], acc.2 + amount)

/-- `get_taxes_collected(from_block, to_block)`: sum `TaxApplied` amounts
over the range, normalized by USDT decimals (fallback 18). -/
def getTaxesCollected (env : ChainEnv) (fromBlock : Nat) (toBlock : Option Nat) :
    TaxResult :=
  match env.packageManager with
  | none => .ok { total_usdt := 0, events := [], decimals := none }
  | some pkgAddr =>
    let topic := env.keccak "TaxApplied(bytes32,uint256,address)"
    match env.getLogs pkgAddr [topic] fromBlock toBlock with
    | .error e => .err e
    | .ok logs =>
      let usdtDec := decimalsOr18 env.usdtDecimalsCall
      let folded := logs.foldl taxStep ([], 0)
      .ok { total_usdt := (folded.2 : ℚ) / 10 ^ usdtDec,
            events := folded.1, decimals := some usdtDec }

/- ### Treasury USDT inflows (`get_treasury_usdt_inflows`) -/

/-- One decoded treasury-inflow `Transfer` event. -/
structure TrEvent where
  amount : Nat
  blockNumber : Nat
  deriving Repr, DecidableEq

/-- The successful return shape of `get_treasury_usdt_inflows`; the early
"contract unavailable" return carries no `decimals` key. -/
structure TreasuryOk where
  total_usdt : ℚ
  events : List TrEvent
  decimals : Option Nat
  deriving Repr, DecidableEq

/-- Result of `get_treasury_usdt_inflows`. -/
inductive TreasuryResult where
  | ok (r : TreasuryOk)
  | err (msg : String)
  deriving Repr, DecidableEq

/-- `_topic_address`: an address left-padded to a 32-byte topic word — the
numeric value is unchanged. -/
def topicAddress (a : Nat) : Nat := a

/-- `get_treasury_usdt_inflows(from_block, to_block)`: sum USDT `Transfer`
events with sender = package manager and recipient = treasury (filtered by
indexed topics in the log query), normalized by USDT decimals. -/
def getTreasuryUsdtInflows (env : ChainEnv) (fromBlock : Nat) (toBlock : Option Nat) :
    TreasuryResult :=
  match env.usdt, env.packageManager, env.treasury with
  | some usdtAddr, some pkgAddr, some treasuryAddr =>
    let topic := env.keccak "Transfer(address,address,uint256)"
    match env.getLogs usdtAddr [topic, topicAddress pkgAddr, topicAddress treasuryAddr]
        fromBlock toBlock with
    | .error e => .err e
    | .ok logs =>
      let usdtDec := decimalsOr18 env.usdtDecimalsCall
      let folded := logs.foldl
        (fun acc lg =>
          let amount := dataAmount lg.data
          (acc.1 ++ [TrEvent.mk amount lg.blockNumber], acc.2 + amount))
        (([] : List TrEvent), 0)
      .ok { total_usdt := (folded.2 : ℚ) / 10 ^ usdtDec,
            events := folded.1, decimals := some usdtDec }
  | _, _, _ => .ok { total_usdt := 0, events := [], decimals := none }

/- ### BLOCKS token transfers (`get_blocks_transfers`) -/

/-- One decoded BLOCKS `Transfer` event, with both the raw and the
decimals-normalized amount. -/
structure XferEvent where
  fromAddr : Nat
  toAddr : Nat
  amount : Nat
  amountNorm : ℚ
  blockNumber : Nat
  deriving Repr, DecidableEq

/-- The successful return shape of `get_blocks_transfers`; the early
"contract unavailable" return carries no `decimals` key. -/
structure XferOk where
  events : List XferEvent
  decimals : Option Nat
  deriving Repr, DecidableEq

/-- Result of `get_blocks_transfers`. -/
inductive XferResult where
  | ok (r : XferOk)
  | err (msg : String)
  deriving Repr, DecidableEq

/-- The per-log step of `get_blocks_transfers`: skip logs with fewer than
three topics; with a holder filter, keep only events where the holder is
the sender or the recipient. -/
def xferStep (holder : Option Nat) (dec : Nat) (acc : List XferEvent) (lg : RawLog) :
    List XferEvent :=
  match lg.topics with
  | _ :: t1 :: t2 :: _ =>
      let fromA := addrOfTopic t1
      let toA := addrOfTopic t2
      match holder with
      | some h =>
          if fromA ≠ h ∧ toA ≠ h then acc
          else
            let amount := dataAmount lg.data
            acc ++ [⟨fromA, toA, amount, (amount : ℚ) / 10 ^ dec, lg.blockNumber⟩]
      | none =>
          let amount := dataAmount lg.data
          acc ++ [⟨fromA, toA, amount, (amount : ℚ) / 10 ^ dec, lg.blockNumber⟩]
  | _ => acc

/-- `get_blocks_transfers(from_block, to_block, holder)`: fetch BLOCKS
`Transfer` events; with a holder the same unrestricted log query is issued
and the filter is applied client-side. -/
def getBlocksTransfers (env : ChainEnv) (fromBlock : Nat) (toBlock : Option Nat)
    (holder : Option Nat) : XferResult :=
  match env.blocksToken with
  | none => .ok { events := [], decimals := none }
  | some tokenAddr =>
    let topic := env.keccak "Transfer(address,address,uint256)"
    match env.getLogs tokenAddr [topic] fromBlock toBlock with
    | .error e => .err e
    | .ok logs =>
      let dec := decimalsOr18 env.blocksDecimalsCall
      .ok { events := logs.foldl (xferStep holder dec) [],
            decimals := some dec }

/- ### Reports summary (`get_reports_summary`) -/

/-- The successful return shape of `get_reports_summary`: the `range` and
`revenue` sub-dicts always carry their keys; the `referrals` value is the
raw result of `get_referral_payments`, error marker included. -/
structure ReportsOk where
  rangeFrom : Nat
  rangeTo : Option Nat
  treasury_usd : ℚ
  taxes_usd : ℚ
  referrals : RefResult
  deriving Repr, DecidableEq

/-- Result of `get_reports_summary`. -/
inductive ReportsResult where
  | ok (r : ReportsOk)
  | err (msg : String)
  deriving Repr, DecidableEq

/-- `latest = self.w3.eth.block_number if self.is_connected() else None`: a
liveness-probed latest-block read whose RPC failure propagates to the
enclosing `except`. -/
def latestProbe (env : ChainEnv) : Except String (Option Nat) :=
  if env.connected then env.blockNumber.map some else .ok none

/-- `get_reports_summary(from_block, to_block)`: compose treasury inflows,
taxes and referral payments over a resolved range; the two revenue fields
default to 0.0 via `.get('total_usdt', 0.0)` when the sub-aggregation
returned an error marker. -/
def getReportsSummary (env : ChainEnv) (fromBlock? toBlock? : Option Nat) :
    ReportsResult :=
  match latestProbe env with
  | .error e => .err e
  | .ok latest =>
    let tb : Option Nat := toBlock? <|> latest
    let fb : Nat := fromBlock?.getD ((tb.getD 0) - 28800)
    let revenueTreasury := getTreasuryUsdtInflows env fb tb
    let revenueTaxes := getTaxesCollected env fb tb
    let referrals := getReferralPayments env fb tb
    .ok { rangeFrom := fb, rangeTo := tb,
          treasury_usd := match revenueTreasury with
            | .ok r => r.total_usdt
            | .err _ => 0,
          taxes_usd := match revenueTaxes with
            | .ok r => r.total_usdt
            | .err _ => 0,
          referrals := referrals }

/- ### Price discovery (`_get_blocks_usdt_price`) -/

/-- Direct dictionary indexing `self.contracts['name']`: the lookup raises
`KeyError` when the name is unbound. -/
def contractAt (entry : Option Nat) : Except String Nat :=
  match entry with
  | some a => .ok a
  | none => .error "KeyError"

/-- Pair-address resolution of `_get_blocks_usdt_price`: the environment
override wins; otherwise `factory.getPair(blocks, usdt)` with the zero
address meaning "no pool" (`.ok none`); with no factory bound the pair
address stays `None` and the later checksum call raises. -/
def resolvePricePair (env : ChainEnv) : Except String (Option Nat) :=
  match env.pairUsdtOverride with
  | some p => .ok (some p)
  | none => do
      let blocksAddr ← contractAt env.blocksToken
      let _usdtAddr ← contractAt env.usdt
      match env.factory with
      | some _ => do
          let p ← env.getPair blocksAddr _usdtAddr
          if p = 0 then pure none else pure (some p)
      | none => .error "to_checksum_address(None)"

/-- The orientation-and-reserves part of `_get_blocks_usdt_price` for a
resolved pair: read `token0`, `token1`, `getReserves` and both tokens'
decimals, then compute `reserve(USDT) / reserve(BLOCKS)` in whichever
orientation matches, `none` when neither matches or when the normalized
BLOCKS reserve is zero. -/
def priceForPair (env : ChainEnv) (p : Nat) : Except String (Option ℚ) := do
  let t0 ← env.token0 p
  let t1 ← env.token1 p
  let rs ← env.getReserves p
  let blocksAddr ← contractAt env.blocksToken
  let usdtAddr ← contractAt env.usdt
  let dec0 ← env.decimalsOf t0
  let dec1 ← env.decimalsOf t1
  if t0 = blocksAddr ∧ t1 = usdtAddr then
    let blocks := (rs.1 : ℚ) / 10 ^ dec0
    let usdt := (rs.2 : ℚ) / 10 ^ dec1
    pure (if blocks > 0 then some (usdt / blocks) else none)
  else if t1 = blocksAddr ∧ t0 = usdtAddr then
    let blocks := (rs.2 : ℚ) / 10 ^ dec1
    let usdt := (rs.1 : ℚ) / 10 ^ dec0
    pure (if blocks > 0 then some (usdt / blocks) else none)
  else
    pure none

/-- `_get_blocks_usdt_price` before the outer `except`-to-`None` collapse. -/
def blocksUsdtPriceE (env : ChainEnv) : Except String (Option ℚ) := do
  match ← resolvePricePair env with
  | none => pure none
  | some p => priceForPair env p

/-- `_get_blocks_usdt_price`: every failure path collapses to `None`. -/
def blocksUsdtPrice (env : ChainEnv) : Option ℚ :=
  match blocksUsdtPriceE env with
  | .ok o => o
  | .error _ => none

/- ### Liquidity stats (`get_liquidity_stats`) -/

/-- `_get_token_meta`: symbol and decimals for a token, degrading to
`{'symbol': '?', 'decimals': 18, 'error': ...}` on any call failure. -/
structure TokenMeta where
  address : Nat
  symbol : String
  decimals : Nat
  hasError : Bool
  deriving Repr, DecidableEq

/-- Fetch `_get_token_meta` data from the environment. -/
def getTokenMeta (env : ChainEnv) (a : Nat) : TokenMeta :=
  match env.symbolOf a, env.decimalsOf a with
  | .ok s, .ok d => ⟨a, s, d, false⟩
  | _, _ => ⟨a, "?", 18, true⟩

/-- Per-token sub-dict of a pool snapshot. -/
structure PoolTokenInfo where
  symbol : String
  address : Nat
  decimals : Nat
  reserve : ℚ
  deriving Repr, DecidableEq

/-- A `compute_pool_stats` snapshot. -/
structure PoolInfo where
  label : String
  address : Nat
  token0 : PoolTokenInfo
  token1 : PoolTokenInfo
  tvl_usd : ℚ
  volume24h_usd : ℚ
  deriving Repr, DecidableEq

/-- `int(hex_data[i:i+64], 16)`: the 32-byte chunk of a data payload
starting at nibble `i` (short when the payload ends early). -/
def swapChunk (nibs : List Nat) (i : Nat) : Nat :=
  hexVal ((nibs.drop i).take 64)

/-- One `Swap` log's contribution to the 24h volume: skip empty payloads
and payloads with fewer than four 32-byte chunks, otherwise sum the
USDT-side in and out legs normalized by the USDT decimals. -/
def swapVolumeStep (t0 t1 : TokenMeta) (vol : ℚ) (lg : RawLog) : ℚ :=
  if lg.data = [] then vol
  else
    let numChunks := (min lg.data.length 256 + 63) / 64
    if numChunks < 4 then vol
    else
      let a0In := swapChunk lg.data 0
      let a1In := swapChunk lg.data 64
      let a0Out := swapChunk lg.data 128
      let a1Out := swapChunk lg.data 192
      let usdtIn := (if t0.symbol = "USDT" then a0In else 0) +
        (if t1.symbol = "USDT" then a1In else 0)
      let usdtOut := (if t0.symbol = "USDT" then a0Out else 0) +
        (if t1.symbol = "USDT" then a1Out else 0)
      let usdtDec := if t0.symbol = "USDT" then t0.decimals
        else if t1.symbol = "USDT" then t1.decimals else 18
      vol + normalizeAmount (usdtIn + usdtOut) usdtDec

/-- `compute_pool_stats(pair_address, label)`: read the pair's tokens and
reserves (fallible), estimate TVL as twice the USDT-side reserve, and sum
`Swap`-event USDT legs over the 24h window for the volume (degrading to 0
on a log-query failure, and to an empty log list when no latest block is
known). -/
def computePoolStats (env : ChainEnv) (latestBlock : Option Nat)
    (fromBlock : Nat) (toBlock : Option Nat) (pairAddress : Nat) (label : String) :
    Except String PoolInfo := do
  let t0a ← env.token0 pairAddress
  let t1a ← env.token1 pairAddress
  let rs ← env.getReserves pairAddress
  let t0 := getTokenMeta env t0a
  let t1 := getTokenMeta env t1a
  let norm0 := normalizeAmount rs.1 t0.decimals
  let norm1 := normalizeAmount rs.2 t1.decimals
  let tvl : ℚ :=
    if t0.symbol = "USDT" then 2 * norm0
    else if t1.symbol = "USDT" then 2 * norm1 else 0
  let swapTopic := env.keccak "Swap(address,uint256,uint256,uint256,uint256,address)"
  let vol : ℚ :=
    match (if latestBlock = none then Except.ok ([] : List RawLog)
           else env.getLogs pairAddress [swapTopic] fromBlock toBlock) with
    | .error _ => 0
    | .ok logs => logs.foldl (swapVolumeStep t0 t1) 0
  pure { label := label, address := pairAddress,
         token0 := ⟨t0.symbol, t0.address, t0.decimals, norm0⟩,
         token1 := ⟨t1.symbol, t1.address, t1.decimals, norm1⟩,
         tvl_usd := tvl, volume24h_usd := vol }

/-- The return shape of `get_liquidity_stats` on success. -/
structure LiqOk where
  total_liquidity_usd : ℚ
  active_pools : Nat
  daily_volume_usd : ℚ
  pools : List PoolInfo
  fromBlock : Nat
  toBlock : Option Nat
  deriving Repr, DecidableEq

/-- Result of `get_liquidity_stats`. -/
inductive LiqResult where
  | ok (r : LiqOk)
  | err (msg : String)
  deriving Repr, DecidableEq

/-- The USDT-pair resolution of `get_liquidity_stats`: environment override,
else a factory `getPair` lookup whose failure or zero result leaves the
pair unset. -/
def resolveLiquidityUsdtPair (env : ChainEnv) : Option Nat :=
  match env.pairUsdtOverride with
  | some p => some p
  | none =>
      match env.factory with
      | some _ =>
          match (do
            let blocksAddr ← contractAt env.blocksToken
            let usdtAddr ← contractAt env.usdt
            env.getPair blocksAddr usdtAddr : Except String Nat) with
          | .ok derived => if derived ≠ 0 then some derived else none
          | .error _ => none
      | none => none

/-- `from_block = max(0, (latest_block or 0) - blocks_24h) if latest_block
is not None else 0`, with `blocks_24h = 28800`. -/
def liqFromBlock (latest : Option Nat) : Nat :=
  match latest with
  | some lb => lb - 28800
  | none => 0

/-- `to_block = latest_block or 'latest'`: the sentinel (`none`) for an
unknown or zero latest block, by Python truthiness. -/
def liqToBlock (latest : Option Nat) : Option Nat :=
  match latest with
  | some lb => if lb = 0 then none else some lb
  | none => none

/-- `get_liquidity_stats` before the outer `except` collapse: resolve the
two configured pools, snapshot each (a snapshot failure drops that pool),
and add only the primary BLOCKS/USDT pool's TVL and 24h volume into the
totals. -/
def getLiquidityStatsE (env : ChainEnv) : Except String LiqOk := do
  let latest ← latestProbe env
  let fromBlock := liqFromBlock latest
  let toBlock := liqToBlock latest
  let pairUsdt := resolveLiquidityUsdtPair env
  let primary : Option PoolInfo :=
    match pairUsdt with
    | none => none
    | some p =>
        match computePoolStats env latest fromBlock toBlock p "BLOCKS/USDT" with
        | .ok info => some info
        | .error _ => none
  let secondary : Option PoolInfo :=
    match env.pairBnbOverride with
    | none => none
    | some p =>
        match computePoolStats env latest fromBlock toBlock p "BLOCKS/BNB" with
        | .ok info => some info
        | .error _ => none
  let pools := primary.toList ++ secondary.toList
  let totalLiq : ℚ := match primary with
    | some info => info.tvl_usd
    | none => 0
  let dailyVol : ℚ := match primary with
    | some info => info.volume24h_usd
    | none => 0
  pure { total_liquidity_usd := totalLiq, active_pools := pools.length,
         daily_volume_usd := dailyVol, pools := pools,
         fromBlock := fromBlock, toBlock := latest }

/-- `get_liquidity_stats()` with the outer `except`-to-error-dict collapse. -/
def getLiquidityStats (env : ChainEnv) : LiqResult :=
  match getLiquidityStatsE env with
  | .ok r => .ok r
  | .error e => .err e

/- ### Package sales (`get_packages_stats`) -/

/-- Per-package accumulator of the Purchased-event fold. -/
structure PkgAgg where
  totalPurchases : Nat
  successfulPurchases : Nat
  totalUsd : ℚ
  deriving Repr, DecidableEq

/-- One row of the `get_packages_stats` output. -/
structure PkgOut where
  packageId : Nat
  totalPurchases : Nat
  successfulPurchases : Nat
  totalUsd : ℚ
  totalKes : Nat
  avgAmount : ℚ
  deriving Repr, DecidableEq

/-- Ordered-dict lookup. -/
def lookupA {α : Type} : List (Nat × α) → Nat → Option α
  | [], _ => none
  | (k, v) :: rest, key => if k = key then some v else lookupA rest key

/-- `if pkg_id not in agg: agg[pkg_id] = zeros` — create a zeroed entry for
an unseen package id, keeping insertion order. -/
def ensurePkg : List (Nat × PkgAgg) → Nat → List (Nat × PkgAgg)
  | [], pid => [(pid, ⟨0, 0, 0⟩)]
  | (k, v) :: rest, pid =>
      if k = pid then (k, v) :: rest else (k, v) :: ensurePkg rest pid

/-- Add one purchase (count, successful count, normalized USDT amount) to a
package's accumulator; the entry is guaranteed present by `ensurePkg`. -/
def bumpPkg : List (Nat × PkgAgg) → Nat → ℚ → List (Nat × PkgAgg)
  | [], _, _ => []
  | (k, v) :: rest, pid, usd =>
      if k = pid then
        (k, ⟨v.totalPurchases + 1, v.successfulPurchases + 1, v.totalUsd + usd⟩) :: rest
      else (k, v) :: bumpPkg rest pid usd

/-- The per-log step of the Purchased-event fold: skip logs with fewer than
three topics; the package id is the full third topic word; a zeroed entry
is created before the data check, so an empty-data log creates the entry
but adds no counts; otherwise the USDT amount is the first 32 data bytes. -/
def pkgStep (usdtDec : Nat) (agg : List (Nat × PkgAgg)) (lg : RawLog) :
    List (Nat × PkgAgg) :=
  match lg.topics with
  | _ :: _ :: t2 :: _ =>
      let pkgId := t2
      let agg := ensurePkg agg pkgId
      if lg.data = [] then agg
      else bumpPkg agg pkgId (normalizeAmount (hexVal (lg.data.take 64)) usdtDec)
  | _ => agg

/-- `get_packages_stats(from_block, to_block)`: the primary window
defaults to 500,000 blocks before the resolved `toBlock`; if the primary
query yields zero logs and `toBlock` is known, one retry over
`max(0, toBlock - 2,500,000)` is issued (its failure is swallowed);
package rows are zero-filled from the catalog ids (`get_all_packages`,
modelled as environment data), sorted by purchase count descending. -/
def getPackagesStats (env : ChainEnv) (fromBlock? toBlock? : Option Nat) :
    List PkgOut :=
  match env.packageManager with
  | none => []
  | some pm =>
    match latestProbe env with
    | .error _ => []
    | .ok latest =>
      let tb : Option Nat := toBlock? <|> latest
      let fb : Nat := fromBlock?.getD ((tb.getD 0) - 500000)
      let topic := env.keccak
        "Purchased(address,uint256,uint256,uint256,uint256,uint256,uint256,address,uint256)"
      match env.getLogs pm [topic] fb tb with
      | .error _ => []
      | .ok logs =>
        let usdtDec := decimalsOr18 env.usdtDecimalsCall
        let initAgg := env.allPackageIds.foldl ensurePkg []
        let agg0 := logs.foldl (pkgStep usdtDec) initAgg
        let agg : List (Nat × PkgAgg) :=
          if logs = [] ∧ tb ≠ none then
            let t := tb.getD 0
            let fbRetry := t - 2500000
            match env.getLogs pm [topic] fbRetry tb with
            | .ok logs2 => logs2.foldl (pkgStep usdtDec) agg0
            | .error _ => agg0
          else agg0
        let allPids := ((agg.map Prod.fst).dedup).mergeSort (· ≤ ·)
        let out := allPids.map (fun pid =>
          let totals := (lookupA agg pid).getD ⟨0, 0, 0⟩
          let avg : ℚ :=
            if totals.totalPurchases > 0 then
              totals.totalUsd / (totals.totalPurchases : ℚ)
            else 0
          PkgOut.mk pid totals.totalPurchases totals.successfulPurchases
            totals.totalUsd 0 avg)
        out.mergeSort (fun a b => b.totalPurchases ≤ a.totalPurchases)

/-- Instrumentation of `get_packages_stats`: the `get_logs` queries it
issues, as `(fromBlock, toBlock)` pairs in order.  The control flow
mirrors `getPackagesStats` exactly: one primary query; plus, only when the
primary query succeeds with zero logs and `toBlock` is known, one retry
anchored at the same `toBlock` (recorded whether or not the retry
succeeds, since the retry's own failure is swallowed). -/
def getPackagesStatsQueries (env : ChainEnv) (fromBlock? toBlock? : Option Nat) :
    List (Nat × Option Nat) :=
  match env.packageManager with
  | none => []
  | some pm =>
    match latestProbe env with
    | .error _ => []
    | .ok latest =>
      let tb : Option Nat := toBlock? <|> latest
      let fb : Nat := fromBlock?.getD ((tb.getD 0) - 500000)
      let topic := env.keccak
        "Purchased(address,uint256,uint256,uint256,uint256,uint256,uint256,address,uint256)"
      match env.getLogs pm [topic] fb tb with
      | .error _ => [(fb, tb)]
      | .ok logs =>
          if logs = [] ∧ tb ≠ none then [(fb, tb), ((tb.getD 0) - 2500000, tb)]
          else [(fb, tb)]

/- ### Gas spend (`get_gas_spend`) -/

/-- Per-sender accumulator of the gas-spend scan. -/
structure GasAcc where
  gasWei : Nat
  txCount : Nat
  deriving Repr, DecidableEq

/-- One row of the `byAddress` output. -/
structure GasEntry where
  address : Nat
  gasBNB : ℚ
  txCount : Nat
  deriving Repr, DecidableEq

/-- The return shape of `get_gas_spend` on success. -/
structure GasOk where
  byAddress : List GasEntry
  fromBlock : Nat
  toBlock : Nat
  scannedBlocks : Nat
  deriving Repr, DecidableEq

/-- Result of `get_gas_spend`. -/
inductive GasResult where
  | ok (r : GasOk)
  | err (msg : String)
  deriving Repr, DecidableEq

/-- `totals_by_addr[frm]['gasWei'] += gas; ['txCount'] += 1` — in-place
update of the per-sender accumulator (the entry is always present, having
been initialized from the allow-list). -/
def updateGas : List (Nat × GasAcc) → Nat → Nat → List (Nat × GasAcc)
  | [], _, _ => []
  | (k, v) :: rest, a, wei =>
      if k = a then (k, ⟨v.gasWei + wei, v.txCount + 1⟩) :: rest
      else (k, v) :: updateGas rest a wei

/-- One transaction of the gas-spend scan: transactions without a sender or
with a sender outside the allow-list are ignored; for matches the receipt
is fetched — a fallible RPC call whose failure aborts the scan into the
enclosing `except` — and `gasUsed * effectiveGasPrice` (gas price
fallback) added. -/
def gasTxStep (env : ChainEnv) (addrSet : List Nat)
    (acc : List (Nat × GasAcc)) (tx : Tx) : Except String (List (Nat × GasAcc)) :=
  match tx.fromAddr with
  | none => .ok acc
  | some f =>
      if f ∈ addrSet then
        match env.getReceipt tx.hash with
        | .error e => .error e
        | .ok receipt =>
            let price := receipt.effectiveGasPrice.getD tx.gasPrice
            .ok (updateGas acc f (receipt.gasUsed * price))
      else .ok acc

/-- One block of the gas-spend scan: the block fetch itself is a fallible
RPC call; its failure, like a receipt failure, aborts the scan. -/
def gasBlockStep (env : ChainEnv) (addrSet : List Nat)
    (acc : List (Nat × GasAcc)) (bn : Nat) : Except String (List (Nat × GasAcc)) :=
  match env.getBlock bn with
  | .error e => .error e
  | .ok txs => txs.foldlM (gasTxStep env addrSet) acc

/-- The clamped lower bound of the scan:
`range(max(from_block, to_block - max_blocks), to_block + 1)`. -/
def gasScanLo (fromBlock toBlock maxBlocks : Nat) : Nat :=
  max fromBlock (toBlock - maxBlocks)

/-- `get_gas_spend(addresses, from_block, to_block, max_blocks)`: scan the
clamped block range, sum receipts for allow-listed senders, and report one
row per deduplicated address together with the caller's (resolved)
`from_block`/`to_block` and the number of blocks actually scanned.  Any
`get_block`/`get_transaction_receipt` failure during the scan reaches the
enclosing `except` and the whole result is the `{'error': ...}` marker. -/
def getGasSpend (env : ChainEnv) (addresses : List Nat)
    (fromBlock? toBlock? : Option Nat) (maxBlocks : Nat) : GasResult :=
  match (match toBlock? with
         | some t => Except.ok t
         | none => env.blockNumber) with
  | .error e => .err e
  | .ok toBlock =>
    let fromBlock := fromBlock?.getD (toBlock - maxBlocks)
    let addrSet := addresses.dedup
    let init : List (Nat × GasAcc) := addrSet.map (fun a => (a, ⟨0, 0⟩))
    let lo := gasScanLo fromBlock toBlock maxBlocks
    let blockNums := List.range' lo (toBlock + 1 - lo)
    match blockNums.foldlM (gasBlockStep env addrSet) init with
    | .error e => .err e
    | .ok totals =>
      .ok { byAddress := totals.map (fun kv =>
              GasEntry.mk kv.1 ((kv.2.gasWei : ℚ) / 10 ^ 18) kv.2.txCount),
            fromBlock := fromBlock, toBlock := toBlock,
            scannedBlocks := blockNums.length }

/- ### Projections (dict key access on the dynamic return shapes) -/

/-- `result.get('total')` on a referral-payments result: absent on the
error marker. -/
def refTotalOf : RefResult → Option ℚ
  | .ok r => some r.total
  | .err _ => none

/-- `len(result['events'])` on a referral-payments result. -/
def refEventCountOf : RefResult → Option Nat
  | .ok r => some r.events.length
  | .err _ => none

/-- `result['byReferrer']` on a referral-payments result. -/
def refByReferrerOf : RefResult → Option (List (Nat × ℚ × Nat))
  | .ok r => some r.byReferrer
  | .err _ => none

/-- `result.get('total_usdt')` on a taxes result. -/
def taxTotalOf : TaxResult → Option ℚ
  | .ok r => some r.total_usdt
  | .err _ => none

/-- `len(result['events'])` on a taxes result. -/
def taxEventCountOf : TaxResult → Option Nat
  | .ok r => some r.events.length
  | .err _ => none

/-- `result.get('total_usdt')` on a treasury-inflows result. -/
def treasuryTotalOf : TreasuryResult → Option ℚ
  | .ok r => some r.total_usdt
  | .err _ => none

/-- `len(result['events'])` on a treasury-inflows result. -/
def treasuryEventCountOf : TreasuryResult → Option Nat
  | .ok r => some r.events.length
  | .err _ => none

/-- `result['events']` on a token-transfers result. -/
def xferEventsOf : XferResult → Option (List XferEvent)
  | .ok r => some r.events
  | .err _ => none

/-- `result['referrals'].get('total')` on a reports summary: the grand
referral total, absent when the summary or its referrals part is an error
marker. -/
def reportsReferralTotal : ReportsResult → Option ℚ
  | .ok r => refTotalOf r.referrals
  | .err _ => none

/- ### Concrete test fixtures -/

/-- A 32-byte big-endian data word as 64 hex nibbles. -/
def pad64 (n : Nat) : List Nat :=
  (List.range 64).map (fun i => n / 16 ^ (63 - i) % 16)

/-- A quiescent environment: nothing bound, every remote call failing.
Fixtures override the fields a scenario needs.  `keccak` is modelled by
string length, which separates the event signatures this service uses. -/
def baseEnv : ChainEnv where
  packageManager := none
  blocksToken := none
  usdt := none
  treasury := none
  factory := none
  pairUsdtOverride := none
  pairBnbOverride := none
  connected := false
  blockNumber := .error "rpc down"
  keccak := String.length
  getLogs := fun _ _ _ _ => .ok []
  getPair := fun _ _ => .error "rpc down"
  token0 := fun _ => .error "rpc down"
  token1 := fun _ => .error "rpc down"
  getReserves := fun _ => .error "rpc down"
  symbolOf := fun _ => .error "rpc down"
  decimalsOf := fun _ => .error "rpc down"
  usdtDecimalsCall := .error "rpc down"
  blocksDecimalsCall := .error "rpc down"
  allPackageIds := []
  getBlock := fun _ => .error "rpc down"
  getReceipt := fun _ => .error "rpc down"

/- ### Claim C5: treasury inflows end-to-end scenario -/

/-- The C5 scenario environment: a 6-decimal stable coin and exactly three
matching Transfer logs (sender = package manager, recipient = treasury,
enforced by the indexed-topic log query) carrying raw amounts 100_000000,
250_000000 and 75_000000. -/
def envC5 : ChainEnv := { baseEnv with
  usdt := some 2, packageManager := some 3, treasury := some 4,
  usdtDecimalsCall := .ok 6,
  getLogs := fun _ _ _ _ => .ok
    [⟨[33, 3, 4], pad64 100000000, 1200⟩,
     ⟨[33, 3, 4], pad64 250000000, 1300⟩,
     ⟨[33, 3, 4], pad64 75000000, 1400⟩] }

/-- Claim C5: over block range [1000, 2000], with exactly three matching
Transfer logs of raw amounts 100_000000, 250_000000, 75_000000 and a
6-decimal stable coin, `get_treasury_usdt_inflows` returns a total of
exactly 425.0 with three decoded events. -/
theorem treasury_inflows_scenario :
    getTreasuryUsdtInflows envC5 1000 (some 2000) = TreasuryResult.ok
      { total_usdt := 425,
        events := [⟨100000000, 1200⟩, ⟨250000000, 1300⟩, ⟨75000000, 1400⟩],
        decimals := some 6 } := by
  have hfold :
      ([(⟨[33, 3, 4], pad64 100000000, 1200⟩ : RawLog),
        ⟨[33, 3, 4], pad64 250000000, 1300⟩,
        ⟨[33, 3, 4], pad64 75000000, 1400⟩].foldl
        (fun acc lg =>
          let amount := dataAmount lg.data
          (acc.1 ++ [TrEvent.mk amount lg.blockNumber], acc.2 + amount))
        (([] : List TrEvent), 0)) =
      ([⟨100000000, 1200⟩, ⟨250000000, 1300⟩, ⟨75000000, 1400⟩], 425000000) := by
    decide
  simp only [getTreasuryUsdtInflows, envC5, baseEnv, hfold, decimalsOr18]
  norm_num

/- ### Claim C6: referral payments end-to-end scenario -/

/-- The C6 scenario environment: an 18-decimal reward token and three
`ReferralPaid` logs — two for referrer 1111 with raw rewards 1e18 and
2e18, one for referrer 2222 with raw reward 5e17. -/
def envC6 : ChainEnv := { baseEnv with
  packageManager := some 3,
  blocksDecimalsCall := .ok 18,
  getLogs := fun _ _ _ _ => .ok
    [⟨[37, 1111, 5001], pad64 1000000000000000000, 900⟩,
     ⟨[37, 1111, 5002], pad64 2000000000000000000, 901⟩,
     ⟨[37, 2222, 5003], pad64 500000000000000000, 902⟩] }

/-- Claim C6: with two `ReferralPaid` events for referrer R1 = 1111 (raw
rewards 1e18 and 2e18) and one for R2 = 2222 (5e17), under 18 reward-token
decimals, `get_referral_payments` yields per-referrer aggregates
R1 ↦ (reward 3.0, count 2) and R2 ↦ (reward 0.5, count 1) and a grand
total of 3.5. -/
theorem referral_payments_scenario :
    getReferralPayments envC6 1000 (some 2000) = RefResult.ok
      { total := 7 / 2,
        events := [⟨1111, 5001, 1000000000000000000, 900⟩,
                   ⟨1111, 5002, 2000000000000000000, 901⟩,
                   ⟨2222, 5003, 500000000000000000, 902⟩],
        byReferrer := [(1111, 3, 2), (2222, 1 / 2, 1)],
        decimals := some 18 } := by
  have hfold :
      ([(⟨[37, 1111, 5001], pad64 1000000000000000000, 900⟩ : RawLog),
        ⟨[37, 1111, 5002], pad64 2000000000000000000, 901⟩,
        ⟨[37, 2222, 5003], pad64 500000000000000000, 902⟩].foldl refStep ([], [])) =
      ([⟨1111, 5001, 1000000000000000000, 900⟩,
        ⟨1111, 5002, 2000000000000000000, 901⟩,
        ⟨2222, 5003, 500000000000000000, 902⟩],
       [(1111, 3000000000000000000, 2), (2222, 500000000000000000, 1)]) := by
    decide
  simp only [getReferralPayments, envC6, baseEnv, hfold, decimalsOr18]
  norm_num
  simp

/- ### Claim C9: holder filter of `get_blocks_transfers` -/

/-- The transfers fold only ever appends to its accumulator. -/
theorem xferStep_append (holder : Option Nat) (dec : Nat) (acc : List XferEvent)
    (lg : RawLog) : xferStep holder dec acc lg = acc ++ xferStep holder dec [] lg := by
  unfold xferStep
  rcases lg.topics with _ | ⟨t0, _ | ⟨t1, _ | ⟨t2, ts⟩⟩⟩ <;> cases holder <;> simp
  split <;> simp

/-- Folding the transfers step from any accumulator appends the fold from
the empty accumulator. -/
theorem foldl_xferStep_append (holder : Option Nat) (dec : Nat) (logs : List RawLog) :
    ∀ acc : List XferEvent,
      logs.foldl (xferStep holder dec) acc = acc ++ logs.foldl (xferStep holder dec) [] := by
  induction logs with
  | nil => intro acc; simp
  | cons lg rest ih =>
      intro acc
      simp only [List.foldl_cons]
      rw [xferStep_append holder dec acc lg, ih (acc ++ xferStep holder dec [] lg),
        ih (xferStep holder dec [] lg), List.append_assoc]

/-- On a single log, the holder-filtered step is the client-side filter of
the unfiltered step. -/
theorem xferStep_filter (h dec : Nat) (lg : RawLog) :
    xferStep (some h) dec [] lg =
      (xferStep none dec [] lg).filter (fun e => e.fromAddr == h || e.toAddr == h) := by
  unfold xferStep
  rcases lg.topics with _ | ⟨t0, _ | ⟨t1, _ | ⟨t2, ts⟩⟩⟩ <;> simp
  by_cases h1 : addrOfTopic t1 = h
  · simp [h1]
  · by_cases h2 : addrOfTopic t2 = h <;> simp [h1, h2]

/-- Over any log list, the holder-filtered fold is the client-side filter
of the unfiltered fold. -/
theorem foldl_xferStep_filter (h dec : Nat) (logs : List RawLog) :
    logs.foldl (xferStep (some h) dec) [] =
      (logs.foldl (xferStep none dec) []).filter
        (fun e => e.fromAddr == h || e.toAddr == h) := by
  induction logs with
  | nil => simp
  | cons lg rest ih =>
      simp only [List.foldl_cons]
      rw [foldl_xferStep_append (some h) dec rest, foldl_xferStep_append none dec rest,
        List.filter_append, ← ih]
      simp [xferStep_filter h dec lg]

/-- Claim C9: for every holder h and block range, the event list returned
by `get_blocks_transfers` with `holder = h` equals the unfiltered call's
event list over the same range restricted to the events in which h is the
sender or the recipient; surviving events are unchanged. -/
theorem blocks_transfers_holder_filter (env : ChainEnv) (fb : Nat) (tb : Option Nat)
    (h : Nat) :
    xferEventsOf (getBlocksTransfers env fb tb (some h)) =
      (xferEventsOf (getBlocksTransfers env fb tb none)).map
        (fun evs => evs.filter (fun e => e.fromAddr == h || e.toAddr == h)) := by
  unfold getBlocksTransfers
  cases env.blocksToken with
  | none => simp [xferEventsOf]
  | some tok =>
      rcases hgl : env.getLogs tok [env.keccak "Transfer(address,address,uint256)"] fb tb with
        e | logs
      · simp [hgl, xferEventsOf]
      · simp [hgl, xferEventsOf, foldl_xferStep_filter]

/- ### Claim C4: degenerate cases of the BLOCKS/USDT spot price -/

/-- Claim C4: the spot-price function returns `None` (and never raises or
divides by zero) when the factory lookup yields the zero address, when the
pool's tokens match the BLOCKS/USDT addresses in neither orientation, and
when the normalized BLOCKS-side reserve is zero (in either orientation,
for distinct token addresses); and every error on the resolution path also
collapses to `None`. -/
theorem spot_price_absent (env : ChainEnv) (B U : Nat)
    (hB : env.blocksToken = some B) (hU : env.usdt = some U) (hBU : B ≠ U) :
    (∀ f, env.pairUsdtOverride = none → env.factory = some f →
      env.getPair B U = Except.ok 0 → blocksUsdtPrice env = none) ∧
    (∀ p t0 t1, resolvePricePair env = Except.ok (some p) →
      env.token0 p = Except.ok t0 → env.token1 p = Except.ok t1 →
      ¬(t0 = B ∧ t1 = U) → ¬(t1 = B ∧ t0 = U) →
      blocksUsdtPrice env = none) ∧
    (∀ p r1 d0 d1, resolvePricePair env = Except.ok (some p) →
      env.token0 p = Except.ok B → env.token1 p = Except.ok U →
      env.getReserves p = Except.ok (0, r1) →
      env.decimalsOf B = Except.ok d0 → env.decimalsOf U = Except.ok d1 →
      blocksUsdtPrice env = none) ∧
    (∀ p r0 d0 d1, resolvePricePair env = Except.ok (some p) →
      env.token0 p = Except.ok U → env.token1 p = Except.ok B →
      env.getReserves p = Except.ok (r0, 0) →
      env.decimalsOf U = Except.ok d0 → env.decimalsOf B = Except.ok d1 →
      blocksUsdtPrice env = none) ∧
    (∀ e, blocksUsdtPriceE env = Except.error e → blocksUsdtPrice env = none) := by
  refine ⟨?_, ?_, ?_, ?_, ?_⟩
  · intro f hov hf hgp
    simp [blocksUsdtPrice, blocksUsdtPriceE, resolvePricePair, contractAt,
      hB, hU, hov, hf, hgp, Except.bind, bind, pure, Except.pure]
  · intro p t0 t1 hres h0 h1 hm1 hm2
    simp only [blocksUsdtPrice, blocksUsdtPriceE, bind, Except.bind, hres]
    rcases hrs : env.getReserves p with e | ⟨r0, r1⟩
    · simp [priceForPair, h0, h1, hrs, Except.bind, bind]
    · rcases hd0 : env.decimalsOf t0 with e0 | d0
      · simp [priceForPair, h0, h1, hrs, hd0, contractAt, hB, hU, Except.bind, bind]
      · rcases hd1 : env.decimalsOf t1 with e1 | d1
        · simp [priceForPair, h0, h1, hrs, hd0, hd1, contractAt, hB, hU, Except.bind, bind]
        · simp [priceForPair, h0, h1, hrs, hd0, hd1, contractAt, hB, hU, Except.bind, bind,
            hm1, hm2, pure, Except.pure]
  · intro p r1 d0 d1 hres h0 h1 hrs hd0 hd1
    simp [blocksUsdtPrice, blocksUsdtPriceE, priceForPair, hres, h0, h1, hrs, hd0, hd1,
      contractAt, hB, hU, Except.bind, bind, pure, Except.pure]
  · intro p r0 d0 d1 hres h0 h1 hrs hd0 hd1
    have hUB : U ≠ B := fun hh => hBU hh.symm
    simp [blocksUsdtPrice, blocksUsdtPriceE, priceForPair, hres, h0, h1, hrs, hd0, hd1,
      contractAt, hB, hU, Except.bind, bind, pure, Except.pure, hUB, hBU]
  · intro e he
    simp [blocksUsdtPrice, he]

/-- C4 fixture: factory lookup yields the zero address. -/
def envC4a : ChainEnv := { baseEnv with
  blocksToken := some 1, usdt := some 2, factory := some 5,
  getPair := fun _ _ => .ok 0 }

/-- C4 fixture: a pool whose tokens (7, 8) match neither configured
token. -/
def envC4b : ChainEnv := { baseEnv with
  blocksToken := some 1, usdt := some 2, pairUsdtOverride := some 9,
  token0 := fun _ => .ok 7, token1 := fun _ => .ok 8 }

/-- C4 fixture: correct orientation with a zero BLOCKS reserve. -/
def envC4c : ChainEnv := { baseEnv with
  blocksToken := some 1, usdt := some 2, pairUsdtOverride := some 9,
  token0 := fun _ => .ok 1, token1 := fun _ => .ok 2,
  getReserves := fun _ => .ok (0, 500),
  decimalsOf := fun a => .ok (if a = 1 then 18 else 6) }

/-- C4 fixture: reversed orientation with a zero BLOCKS reserve. -/
def envC4d : ChainEnv := { baseEnv with
  blocksToken := some 1, usdt := some 2, pairUsdtOverride := some 9,
  token0 := fun _ => .ok 2, token1 := fun _ => .ok 1,
  getReserves := fun _ => .ok (500, 0),
  decimalsOf := fun a => .ok (if a = 1 then 18 else 6) }

/-- Witness for C4: each degenerate case evaluated on a concrete
environment. -/
theorem spot_price_absent_witness :
    blocksUsdtPrice envC4a = none ∧ blocksUsdtPrice envC4b = none ∧
    blocksUsdtPrice envC4c = none ∧ blocksUsdtPrice envC4d = none :=
  ⟨(spot_price_absent envC4a 1 2 rfl rfl (by decide)).1 5 rfl rfl rfl,
   (spot_price_absent envC4b 1 2 rfl rfl (by decide)).2.1 9 7 8 rfl rfl rfl
     (by decide) (by decide),
   (spot_price_absent envC4c 1 2 rfl rfl (by decide)).2.2.1 9 500 18 6 rfl rfl rfl
     rfl rfl rfl,
   (spot_price_absent envC4d 1 2 rfl rfl (by decide)).2.2.2.1 9 500 6 18 rfl rfl rfl
     rfl rfl rfl⟩

/- ### Claim C7: liquidity stats count only the primary pool's volume -/

/-- Claim C7: when the primary BLOCKS/USDT pool resolves and its snapshot
succeeds, `get_liquidity_stats` reports `active_pools = 1` and a
`daily_volume_usd` equal to exactly the primary pool's 24h volume when no
secondary pool is configured; and even when a secondary BLOCKS/BNB pool is
configured and snapshots successfully, its volume is never added —
`daily_volume_usd` stays the primary pool's volume. -/
theorem liquidity_primary_only (env : ChainEnv) (lt : Option Nat) (p : Nat)
    (info : PoolInfo)
    (hlt : latestProbe env = Except.ok lt)
    (hp : resolveLiquidityUsdtPair env = some p)
    (hc : computePoolStats env lt (liqFromBlock lt) (liqToBlock lt) p "BLOCKS/USDT" =
      Except.ok info) :
    (env.pairBnbOverride = none →
      getLiquidityStats env =
        .ok ⟨info.tvl_usd, 1, info.volume24h_usd, [info], liqFromBlock lt, lt⟩) ∧
    (∀ q info2, env.pairBnbOverride = some q →
      computePoolStats env lt (liqFromBlock lt) (liqToBlock lt) q "BLOCKS/BNB" =
        Except.ok info2 →
      getLiquidityStats env =
        .ok ⟨info.tvl_usd, 2, info.volume24h_usd, [info, info2], liqFromBlock lt, lt⟩) := by
  constructor
  · intro hbnb
    simp [getLiquidityStats, getLiquidityStatsE, hlt, hp, hc, hbnb,
      Except.bind, bind, pure, Except.pure]
  · intro q info2 hbnb hc2
    simp [getLiquidityStats, getLiquidityStatsE, hlt, hp, hc, hbnb, hc2,
      Except.bind, bind, pure, Except.pure]

/-- C7 fixture: only the primary stable pool configured; a USDT/BLK pool
with reserves 50 USDT (6 decimals) and 3 BLK (18 decimals), no known
latest block (so the 24h swap scan sees no logs). -/
def envC7 : ChainEnv := { baseEnv with
  connected := false,
  pairUsdtOverride := some 9,
  token0 := fun _ => .ok 21, token1 := fun _ => .ok 22,
  getReserves := fun _ => .ok (50000000, 3000000000000000000),
  symbolOf := fun a => .ok (if a = 21 then "USDT" else "BLK"),
  decimalsOf := fun a => .ok (if a = 21 then 6 else 18) }

/-- The pool snapshot of the C7 fixture. -/
def infoC7 : PoolInfo :=
  ⟨"BLOCKS/USDT", 9, ⟨"USDT", 21, 6, 50⟩, ⟨"BLK", 22, 18, 3⟩, 100, 0⟩

/-- Witness for C7: on the concrete fixture the stats report one active
pool and the primary pool's volume only. -/
theorem liquidity_primary_only_witness :
    getLiquidityStats envC7 = .ok ⟨100, 1, 0, [infoC7], 0, none⟩ := by
  have hc : computePoolStats envC7 none (liqFromBlock none) (liqToBlock none) 9
      "BLOCKS/USDT" = Except.ok infoC7 := by
    simp [computePoolStats, envC7, baseEnv, getTokenMeta, normalizeAmount, infoC7,
      Except.bind, bind, pure, Except.pure, liqFromBlock, liqToBlock]
    norm_num
  have h := (liquidity_primary_only envC7 none 9 infoC7 rfl rfl hc).1 rfl
  simpa [infoC7] using h

/- ### Claim C3: reports summary field existence and defaulting -/

/-- Claim C3 (amended): provided the latest-block probe does not raise,
`get_reports_summary` always returns a structure carrying the range and
both revenue fields, with `revenue.treasury_usd` and `revenue.taxes_usd`
equal to the sub-total on success and defaulted to 0.0 on sub-failure;
the `referrals` field is the referral sub-result passed through
unchanged (error marker included). -/
theorem reports_summary_fields (env : ChainEnv) (fb? tb? : Option Nat) (lt : Option Nat)
    (hlt : latestProbe env = Except.ok lt) :
    ∃ r, getReportsSummary env fb? tb? = .ok r ∧
      r.rangeTo = (tb? <|> lt) ∧
      r.rangeFrom = fb?.getD (((tb? <|> lt).getD 0) - 28800) ∧
      (∀ t, getTreasuryUsdtInflows env r.rangeFrom r.rangeTo = .ok t →
        r.treasury_usd = t.total_usdt) ∧
      (∀ e, getTreasuryUsdtInflows env r.rangeFrom r.rangeTo = .err e →
        r.treasury_usd = 0) ∧
      (∀ t, getTaxesCollected env r.rangeFrom r.rangeTo = .ok t →
        r.taxes_usd = t.total_usdt) ∧
      (∀ e, getTaxesCollected env r.rangeFrom r.rangeTo = .err e →
        r.taxes_usd = 0) ∧
      r.referrals = getReferralPayments env r.rangeFrom r.rangeTo := by
  refine ⟨⟨fb?.getD (((tb? <|> lt).getD 0) - 28800), tb? <|> lt,
    (match getTreasuryUsdtInflows env (fb?.getD (((tb? <|> lt).getD 0) - 28800))
        (tb? <|> lt) with
      | .ok t => t.total_usdt
      | .err _ => 0),
    (match getTaxesCollected env (fb?.getD (((tb? <|> lt).getD 0) - 28800))
        (tb? <|> lt) with
      | .ok t => t.total_usdt
      | .err _ => 0),
    getReferralPayments env (fb?.getD (((tb? <|> lt).getD 0) - 28800)) (tb? <|> lt)⟩,
    ?_, rfl, rfl, ?_, ?_, ?_, ?_, rfl⟩
  · simp only [getReportsSummary, hlt]
  · intro t ht; simp only [ht]
  · intro e he; simp only [he]
  · intro t ht; simp only [ht]
  · intro e he; simp only [he]

/-- C3 counterexample fixture: all contracts bound, treasury and taxes log
queries succeed with no logs, but the `ReferralPaid` query (topic 37 under
the length-model of keccak) raises. -/
def envC3bad : ChainEnv := { baseEnv with
  packageManager := some 3, usdt := some 2, treasury := some 4,
  usdtDecimalsCall := .ok 6,
  getLogs := fun _ topics _ _ => if topics = [37] then .error "boom" else .ok [] }

/-- Counterexample to C3 as stated: when the referral sub-aggregation
fails, `get_reports_summary` still returns a structure (range and revenue
fields zeroed), but its `referrals` value is the bare error marker — the
referrals totals are missing, not zeroed. -/
theorem reports_summary_missing_referral_totals :
    getReportsSummary envC3bad (some 0) (some 10) =
      .ok ⟨0, some 10, 0, 0, .err "boom"⟩ ∧
    reportsReferralTotal (getReportsSummary envC3bad (some 0) (some 10)) = none := by
  have h37 : "ReferralPaid(address,address,uint256)".length = 37 := by decide
  have h35 : "TaxApplied(bytes32,uint256,address)".length = 35 := by decide
  have h33 : "Transfer(address,address,uint256)".length = 33 := by decide
  have hmain : getReportsSummary envC3bad (some 0) (some 10) =
      .ok ⟨0, some 10, 0, 0, .err "boom"⟩ := by
    simp [getReportsSummary, getTreasuryUsdtInflows, getTaxesCollected,
      getReferralPayments, envC3bad, baseEnv, latestProbe, decimalsOr18,
      topicAddress, h37, h35, h33, Except.bind, bind, pure, Except.pure]
  exact ⟨hmain, by rw [hmain]; rfl⟩

/-- Witness for C3 (amended) at a concrete environment and range. -/
theorem reports_summary_fields_witness :
    ∃ r, getReportsSummary baseEnv (some 5) (some 9) = .ok r ∧
      r.rangeTo = ((some 9 : Option Nat) <|> none) ∧
      r.rangeFrom =
        (some 5 : Option Nat).getD ((((some 9 : Option Nat) <|> none).getD 0) - 28800) ∧
      (∀ t, getTreasuryUsdtInflows baseEnv r.rangeFrom r.rangeTo = .ok t →
        r.treasury_usd = t.total_usdt) ∧
      (∀ e, getTreasuryUsdtInflows baseEnv r.rangeFrom r.rangeTo = .err e →
        r.treasury_usd = 0) ∧
      (∀ t, getTaxesCollected baseEnv r.rangeFrom r.rangeTo = .ok t →
        r.taxes_usd = t.total_usdt) ∧
      (∀ e, getTaxesCollected baseEnv r.rangeFrom r.rangeTo = .err e →
        r.taxes_usd = 0) ∧
      r.referrals = getReferralPayments baseEnv r.rangeFrom r.rangeTo :=
  reports_summary_fields baseEnv (some 5) (some 9) none rfl

/- ### Claim C1: handling of short-data logs in the event folds -/

/-- The per-log referral event decode: `none` for logs with fewer than
three topics (those are skipped), the decoded event otherwise. -/
def refEventOf (lg : RawLog) : Option RefEvent :=
  match lg.topics with
  | _ :: t1 :: t2 :: _ =>
      some ⟨addrOfTopic t1, addrOfTopic t2, dataAmount lg.data, lg.blockNumber⟩
  | _ => none

/-- One referral fold step appends the decoded event (when any). -/
theorem refStep_events (acc : List RefEvent × List (Nat × Nat × Nat)) (lg : RawLog) :
    (refStep acc lg).1 = acc.1 ++ (refEventOf lg).toList := by
  unfold refStep refEventOf
  rcases lg.topics with _ | ⟨t0, _ | ⟨t1, _ | ⟨t2, ts⟩⟩⟩ <;> simp

/-- The events component of the referral fold is the `filterMap` of the
per-log decode. -/
theorem foldl_refStep_events (logs : List RawLog) :
    ∀ acc : List RefEvent × List (Nat × Nat × Nat),
      (logs.foldl refStep acc).1 = acc.1 ++ logs.filterMap refEventOf := by
  induction logs with
  | nil => intro acc; simp
  | cons lg rest ih =>
      intro acc
      simp only [List.foldl_cons, ih (refStep acc lg), refStep_events,
        List.filterMap_cons]
      rcases h : refEventOf lg with _ | ev <;> simp [h]

/-- Closed form of `get_referral_payments` on a successful log query: the
grand total is the sum of every decoded log's reward (truncated-data
rewards included) over the reward-token decimals, and the event count is
the number of logs with at least three topics. -/
theorem getReferralPayments_formula (env : ChainEnv) (pm fb : Nat) (tb : Option Nat)
    (logs : List RawLog) (hpm : env.packageManager = some pm)
    (hlogs : env.getLogs pm [env.keccak "ReferralPaid(address,address,uint256)"] fb tb =
      Except.ok logs) :
    refTotalOf (getReferralPayments env fb tb) =
      some ((((logs.filterMap refEventOf).map RefEvent.reward).sum : ℚ) /
        10 ^ decimalsOr18 env.blocksDecimalsCall) ∧
    refEventCountOf (getReferralPayments env fb tb) =
      some (logs.filterMap refEventOf).length := by
  have hev : (logs.foldl refStep ([], [])).1 = logs.filterMap refEventOf := by
    simpa using foldl_refStep_events logs ([], [])
  constructor
  · simp only [getReferralPayments, hpm, hlogs, refTotalOf, hev]
    by_cases hE : logs.filterMap refEventOf = []
    · simp [hE]
    · simp [hE]
  · simp only [getReferralPayments, hpm, hlogs, refEventCountOf, hev]

/-- The per-log tax event decode (every log is folded; the recipient is
absent when the log has at most two topics). -/
def taxEventOf (lg : RawLog) : TaxEvent :=
  ⟨(lg.topics.get? 2).map addrOfTopic, dataAmount lg.data, lg.blockNumber⟩

/-- Closed form of the taxes fold: every log contributes its event and its
(possibly truncated, possibly zero) data amount. -/
theorem foldl_taxStep (logs : List RawLog) :
    ∀ acc : List TaxEvent × Nat,
      logs.foldl taxStep acc =
        (acc.1 ++ logs.map taxEventOf,
         acc.2 + (logs.map (fun lg => dataAmount lg.data)).sum) := by
  induction logs with
  | nil => intro acc; simp
  | cons lg rest ih =>
      intro acc
      simp only [List.foldl_cons, ih, taxStep, taxEventOf, List.map_cons, List.sum_cons,
        Prod.mk.injEq]
      exact ⟨by simp, by omega⟩

/-- Closed form of `get_taxes_collected` on a successful log query. -/
theorem getTaxesCollected_formula (env : ChainEnv) (pm fb : Nat) (tb : Option Nat)
    (logs : List RawLog) (hpm : env.packageManager = some pm)
    (hlogs : env.getLogs pm [env.keccak "TaxApplied(bytes32,uint256,address)"] fb tb =
      Except.ok logs) :
    taxTotalOf (getTaxesCollected env fb tb) =
      some (((logs.map (fun lg => dataAmount lg.data)).sum : ℚ) /
        10 ^ decimalsOr18 env.usdtDecimalsCall) ∧
    taxEventCountOf (getTaxesCollected env fb tb) = some logs.length := by
  simp [getTaxesCollected, hpm, hlogs, taxTotalOf, taxEventCountOf, foldl_taxStep]

/-- The treasury-inflows fold in closed form: every log contributes its
event and its (possibly truncated, possibly zero) data amount. -/
theorem foldl_treasuryStep (logs : List RawLog) :
    ∀ acc : List TrEvent × Nat,
      logs.foldl (fun acc lg =>
          let amount := dataAmount lg.data
          (acc.1 ++ [TrEvent.mk amount lg.blockNumber], acc.2 + amount)) acc =
        (acc.1 ++ logs.map (fun lg => TrEvent.mk (dataAmount lg.data) lg.blockNumber),
         acc.2 + (logs.map (fun lg => dataAmount lg.data)).sum) := by
  induction logs with
  | nil => intro acc; simp
  | cons lg rest ih =>
      intro acc
      simp only [List.foldl_cons, ih, List.map_cons, List.sum_cons, Prod.mk.injEq]
      exact ⟨by simp, by omega⟩

/-- Closed form of `get_treasury_usdt_inflows` on a successful log query. -/
theorem getTreasuryUsdtInflows_formula (env : ChainEnv) (us pm tr fb : Nat)
    (tb : Option Nat) (logs : List RawLog)
    (husdt : env.usdt = some us) (hpm : env.packageManager = some pm)
    (htreas : env.treasury = some tr)
    (hlogs : env.getLogs us [env.keccak "Transfer(address,address,uint256)",
      topicAddress pm, topicAddress tr] fb tb = Except.ok logs) :
    treasuryTotalOf (getTreasuryUsdtInflows env fb tb) =
      some (((logs.map (fun lg => dataAmount lg.data)).sum : ℚ) /
        10 ^ decimalsOr18 env.usdtDecimalsCall) ∧
    treasuryEventCountOf (getTreasuryUsdtInflows env fb tb) = some logs.length := by
  simp [getTreasuryUsdtInflows, husdt, hpm, htreas, hlogs, treasuryTotalOf,
    treasuryEventCountOf, foldl_treasuryStep]

/-- The per-log token-transfer event decode: `none` for logs with fewer
than three topics (those are skipped), the decoded event — raw and
normalized amount included — otherwise. -/
def xferEventOf (dec : Nat) (lg : RawLog) : Option XferEvent :=
  match lg.topics with
  | _ :: t1 :: t2 :: _ =>
      some ⟨addrOfTopic t1, addrOfTopic t2, dataAmount lg.data,
        (dataAmount lg.data : ℚ) / 10 ^ dec, lg.blockNumber⟩
  | _ => none

/-- One unfiltered transfers fold step appends the decoded event (if
any). -/
theorem xferStep_none_event (dec : Nat) (lg : RawLog) :
    xferStep none dec [] lg = (xferEventOf dec lg).toList := by
  unfold xferStep xferEventOf
  rcases lg.topics with _ | ⟨t0, _ | ⟨t1, _ | ⟨t2, ts⟩⟩⟩ <;> simp

/-- The unfiltered transfers fold is the `filterMap` of the per-log
decode. -/
theorem foldl_xferStep_none (dec : Nat) (logs : List RawLog) :
    logs.foldl (xferStep none dec) [] = logs.filterMap (xferEventOf dec) := by
  induction logs with
  | nil => simp
  | cons lg rest ih =>
      simp only [List.foldl_cons]
      rw [foldl_xferStep_append none dec rest, xferStep_none_event, List.filterMap_cons]
      rcases h : xferEventOf dec lg with _ | ev <;> simp [h, ih]

/-- Closed form of the unfiltered `get_blocks_transfers` on a successful
log query. -/
theorem getBlocksTransfers_formula (env : ChainEnv) (bt fb : Nat) (tb : Option Nat)
    (logs : List RawLog) (hbt : env.blocksToken = some bt)
    (hlogs : env.getLogs bt [env.keccak "Transfer(address,address,uint256)"] fb tb =
      Except.ok logs) :
    xferEventsOf (getBlocksTransfers env fb tb none) =
      some (logs.filterMap (xferEventOf (decimalsOr18 env.blocksDecimalsCall))) := by
  simp [getBlocksTransfers, hbt, hlogs, xferEventsOf, foldl_xferStep_none]

/-- Claim C1 (amended): in all four event folds — referral payments,
taxes collected, treasury inflows and token transfers — a log with a data
payload shorter than 32 bytes (and, where the fold checks topics, at
least three topics) never terminates the fold and never changes the
contributions of the other logs — but it is not skipped: it is folded
with the amount decoded from its truncated data (0 when empty),
incrementing the event count. -/
theorem short_data_log_folded_not_skipped
    (env env' : ChainEnv) (pm fb : Nat) (tb : Option Nat)
    (pre post : List RawLog) (bad : RawLog)
    (hpm : env.packageManager = some pm) (hpm' : env'.packageManager = some pm)
    (hk : env'.keccak = env.keccak)
    (hbdec : env'.blocksDecimalsCall = env.blocksDecimalsCall)
    (hudec : env'.usdtDecimalsCall = env.usdtDecimalsCall)
    (htop : 3 ≤ bad.topics.length)
    (_hshort : bad.data.length < 64) :
    (env.getLogs pm [env.keccak "ReferralPaid(address,address,uint256)"] fb tb =
        Except.ok (pre ++ bad :: post) →
      env'.getLogs pm [env.keccak "ReferralPaid(address,address,uint256)"] fb tb =
        Except.ok (pre ++ post) →
      ∃ t n, refTotalOf (getReferralPayments env' fb tb) = some t ∧
        refEventCountOf (getReferralPayments env' fb tb) = some n ∧
        refTotalOf (getReferralPayments env fb tb) =
          some (t + (dataAmount bad.data : ℚ) /
            10 ^ decimalsOr18 env.blocksDecimalsCall) ∧
        refEventCountOf (getReferralPayments env fb tb) = some (n + 1)) ∧
    (env.getLogs pm [env.keccak "TaxApplied(bytes32,uint256,address)"] fb tb =
        Except.ok (pre ++ bad :: post) →
      env'.getLogs pm [env.keccak "TaxApplied(bytes32,uint256,address)"] fb tb =
        Except.ok (pre ++ post) →
      ∃ t n, taxTotalOf (getTaxesCollected env' fb tb) = some t ∧
        taxEventCountOf (getTaxesCollected env' fb tb) = some n ∧
        taxTotalOf (getTaxesCollected env fb tb) =
          some (t + (dataAmount bad.data : ℚ) /
            10 ^ decimalsOr18 env.usdtDecimalsCall) ∧
        taxEventCountOf (getTaxesCollected env fb tb) = some (n + 1)) ∧
    (∀ us tr, env.usdt = some us → env'.usdt = some us →
      env.treasury = some tr → env'.treasury = some tr →
      env.getLogs us [env.keccak "Transfer(address,address,uint256)",
        topicAddress pm, topicAddress tr] fb tb = Except.ok (pre ++ bad :: post) →
      env'.getLogs us [env.keccak "Transfer(address,address,uint256)",
        topicAddress pm, topicAddress tr] fb tb = Except.ok (pre ++ post) →
      ∃ t n, treasuryTotalOf (getTreasuryUsdtInflows env' fb tb) = some t ∧
        treasuryEventCountOf (getTreasuryUsdtInflows env' fb tb) = some n ∧
        treasuryTotalOf (getTreasuryUsdtInflows env fb tb) =
          some (t + (dataAmount bad.data : ℚ) /
            10 ^ decimalsOr18 env.usdtDecimalsCall) ∧
        treasuryEventCountOf (getTreasuryUsdtInflows env fb tb) = some (n + 1)) ∧
    (∀ bt, env.blocksToken = some bt → env'.blocksToken = some bt →
      env.getLogs bt [env.keccak "Transfer(address,address,uint256)"] fb tb =
        Except.ok (pre ++ bad :: post) →
      env'.getLogs bt [env.keccak "Transfer(address,address,uint256)"] fb tb =
        Except.ok (pre ++ post) →
      ∃ ev, xferEventOf (decimalsOr18 env.blocksDecimalsCall) bad = some ev ∧
        ev.amount = dataAmount bad.data ∧
        xferEventsOf (getBlocksTransfers env fb tb none) =
          some (pre.filterMap (xferEventOf (decimalsOr18 env.blocksDecimalsCall)) ++
            ev :: post.filterMap (xferEventOf (decimalsOr18 env.blocksDecimalsCall))) ∧
        xferEventsOf (getBlocksTransfers env' fb tb none) =
          some (pre.filterMap (xferEventOf (decimalsOr18 env.blocksDecimalsCall)) ++
            post.filterMap (xferEventOf (decimalsOr18 env.blocksDecimalsCall)))) := by
  refine ⟨?_, ?_, ?_, ?_⟩
  · intro h1 h2
    rcases hbt : bad.topics with _ | ⟨t0, tl1⟩
    · rw [hbt] at htop; simp at htop
    rcases tl1 with _ | ⟨t1, tl2⟩
    · rw [hbt] at htop; simp at htop
    rcases tl2 with _ | ⟨t2, ts⟩
    · rw [hbt] at htop; simp at htop
    have hev : refEventOf bad =
        some ⟨addrOfTopic t1, addrOfTopic t2, dataAmount bad.data, bad.blockNumber⟩ := by
      simp [refEventOf, hbt]
    have A := getReferralPayments_formula env pm fb tb (pre ++ bad :: post) hpm h1
    have B := getReferralPayments_formula env' pm fb tb (pre ++ post) hpm'
      (by rw [hk]; exact h2)
    rw [hbdec] at B
    refine ⟨_, _, B.1, B.2, ?_, ?_⟩
    · rw [A.1]
      congr 1
      rw [List.filterMap_append, List.filterMap_append, List.filterMap_cons, hev]
      simp only [List.map_append, List.sum_append, List.map_cons, List.sum_cons]
      push_cast
      ring
    · rw [A.2]
      congr 1
      rw [List.filterMap_append, List.filterMap_append, List.filterMap_cons, hev]
      simp
      omega
  · intro h1 h2
    have A := getTaxesCollected_formula env pm fb tb (pre ++ bad :: post) hpm h1
    have B := getTaxesCollected_formula env' pm fb tb (pre ++ post) hpm'
      (by rw [hk]; exact h2)
    rw [hudec] at B
    refine ⟨_, _, B.1, B.2, ?_, ?_⟩
    · rw [A.1]
      congr 1
      simp only [List.map_append, List.sum_append, List.map_cons, List.sum_cons]
      push_cast
      ring
    · rw [A.2]
      simp
      omega
  · intro us tr husdt husdt' htreas htreas' h1 h2
    have A := getTreasuryUsdtInflows_formula env us pm tr fb tb (pre ++ bad :: post)
      husdt hpm htreas h1
    have B := getTreasuryUsdtInflows_formula env' us pm tr fb tb (pre ++ post)
      husdt' hpm' htreas' (by rw [hk]; exact h2)
    rw [hudec] at B
    refine ⟨_, _, B.1, B.2, ?_, ?_⟩
    · rw [A.1]
      congr 1
      simp only [List.map_append, List.sum_append, List.map_cons, List.sum_cons]
      push_cast
      ring
    · rw [A.2]
      simp
      omega
  · intro bt hbt hbt' h1 h2
    rcases hbtp : bad.topics with _ | ⟨t0, tl1⟩
    · rw [hbtp] at htop; simp at htop
    rcases tl1 with _ | ⟨t1, tl2⟩
    · rw [hbtp] at htop; simp at htop
    rcases tl2 with _ | ⟨t2, ts⟩
    · rw [hbtp] at htop; simp at htop
    have hev : xferEventOf (decimalsOr18 env.blocksDecimalsCall) bad =
        some ⟨addrOfTopic t1, addrOfTopic t2, dataAmount bad.data,
          (dataAmount bad.data : ℚ) / 10 ^ decimalsOr18 env.blocksDecimalsCall,
          bad.blockNumber⟩ := by
      simp [xferEventOf, hbtp]
    have A := getBlocksTransfers_formula env bt fb tb (pre ++ bad :: post) hbt h1
    have B := getBlocksTransfers_formula env' bt fb tb (pre ++ post) hbt'
      (by rw [hk]; exact h2)
    rw [hbdec] at B
    refine ⟨_, hev, rfl, ?_, ?_⟩
    · rw [A]
      congr 1
      rw [List.filterMap_append, List.filterMap_cons, hev]
    · rw [B, List.filterMap_append]

/-- C1 counterexample fixture: exactly one `ReferralPaid` log with three
topics and a 2-nibble (1-byte) data payload 0xab. -/
def envC1 : ChainEnv := { baseEnv with
  packageManager := some 3, blocksDecimalsCall := .ok 18,
  getLogs := fun _ _ _ _ => .ok [⟨[37, 1111, 5001], [10, 11], 99⟩] }

/-- C1 fixture with no logs at all: what the result would be if the short
log above were skipped. -/
def envC1none : ChainEnv := { baseEnv with
  packageManager := some 3, blocksDecimalsCall := .ok 18 }

/-- Counterexample to C1 as stated: the short-data log is not skipped —
it produces an event (count 1, not 0) and parses the truncated payload as
the reward 0xab = 171, so the result differs from the skip-the-log
result. -/
theorem short_data_log_counterexample :
    refEventCountOf (getReferralPayments envC1 0 (some 10)) = some 1 ∧
    refTotalOf (getReferralPayments envC1 0 (some 10)) = some (171 / 10 ^ 18) ∧
    getReferralPayments envC1 0 (some 10) ≠ getReferralPayments envC1none 0 (some 10) := by
  have hfold : [(⟨[37, 1111, 5001], [10, 11], 99⟩ : RawLog)].foldl refStep ([], []) =
      ([⟨1111, 5001, 171, 99⟩], [(1111, 171, 1)]) := by decide
  have h1 : getReferralPayments envC1 0 (some 10) = .ok
      ⟨171 / 10 ^ 18, [⟨1111, 5001, 171, 99⟩], [(1111, 171 / 10 ^ 18, 1)], some 18⟩ := by
    simp [getReferralPayments, envC1, baseEnv, hfold, decimalsOr18]
  have h2 : getReferralPayments envC1none 0 (some 10) = .ok ⟨0, [], [], some 18⟩ := by
    simp [getReferralPayments, envC1none, baseEnv, decimalsOr18]
  refine ⟨by rw [h1]; rfl, by rw [h1]; rfl, ?_⟩
  rw [h1, h2]
  simp

/-- C1 witness fixture: all relevant contracts bound; every query returns
one well-formed log plus one short-data log. -/
def envC1w : ChainEnv := { baseEnv with
  packageManager := some 3, usdt := some 2, treasury := some 4, blocksToken := some 8,
  blocksDecimalsCall := .ok 18, usdtDecimalsCall := .ok 6,
  getLogs := fun _ _ _ _ => .ok
    [⟨[37, 1111, 5001], pad64 2000000000000000000, 98⟩, ⟨[37, 2222, 5002], [10, 11], 99⟩] }

/-- C1 witness fixture: the same log stream without the short-data log. -/
def envC1wNone : ChainEnv := { baseEnv with
  packageManager := some 3, usdt := some 2, treasury := some 4, blocksToken := some 8,
  blocksDecimalsCall := .ok 18, usdtDecimalsCall := .ok 6,
  getLogs := fun _ _ _ _ => .ok [⟨[37, 1111, 5001], pad64 2000000000000000000, 98⟩] }

/-- Witness for the amended C1 at a concrete log stream, exercising all
four folds. -/
theorem short_data_log_folded_witness :
    (∃ t n, refTotalOf (getReferralPayments envC1wNone 7 (some 8)) = some t ∧
      refEventCountOf (getReferralPayments envC1wNone 7 (some 8)) = some n ∧
      refTotalOf (getReferralPayments envC1w 7 (some 8)) =
        some (t + (dataAmount [10, 11] : ℚ) /
          10 ^ decimalsOr18 envC1w.blocksDecimalsCall) ∧
      refEventCountOf (getReferralPayments envC1w 7 (some 8)) = some (n + 1)) ∧
    (∃ t n, taxTotalOf (getTaxesCollected envC1wNone 7 (some 8)) = some t ∧
      taxEventCountOf (getTaxesCollected envC1wNone 7 (some 8)) = some n ∧
      taxTotalOf (getTaxesCollected envC1w 7 (some 8)) =
        some (t + (dataAmount [10, 11] : ℚ) /
          10 ^ decimalsOr18 envC1w.usdtDecimalsCall) ∧
      taxEventCountOf (getTaxesCollected envC1w 7 (some 8)) = some (n + 1)) ∧
    (∃ t n, treasuryTotalOf (getTreasuryUsdtInflows envC1wNone 7 (some 8)) = some t ∧
      treasuryEventCountOf (getTreasuryUsdtInflows envC1wNone 7 (some 8)) = some n ∧
      treasuryTotalOf (getTreasuryUsdtInflows envC1w 7 (some 8)) =
        some (t + (dataAmount [10, 11] : ℚ) /
          10 ^ decimalsOr18 envC1w.usdtDecimalsCall) ∧
      treasuryEventCountOf (getTreasuryUsdtInflows envC1w 7 (some 8)) = some (n + 1)) ∧
    (∃ ev, xferEventOf (decimalsOr18 envC1w.blocksDecimalsCall)
        ⟨[37, 2222, 5002], [10, 11], 99⟩ = some ev ∧
      ev.amount = dataAmount [10, 11] ∧
      xferEventsOf (getBlocksTransfers envC1w 7 (some 8) none) =
        some (([⟨[37, 1111, 5001], pad64 2000000000000000000, 98⟩] :
            List RawLog).filterMap
            (xferEventOf (decimalsOr18 envC1w.blocksDecimalsCall)) ++
          ev :: ([] : List RawLog).filterMap
            (xferEventOf (decimalsOr18 envC1w.blocksDecimalsCall))) ∧
      xferEventsOf (getBlocksTransfers envC1wNone 7 (some 8) none) =
        some (([⟨[37, 1111, 5001], pad64 2000000000000000000, 98⟩] :
            List RawLog).filterMap
            (xferEventOf (decimalsOr18 envC1w.blocksDecimalsCall)) ++
          ([] : List RawLog).filterMap
            (xferEventOf (decimalsOr18 envC1w.blocksDecimalsCall)))) :=
  ⟨(short_data_log_folded_not_skipped envC1w envC1wNone 3 7 (some 8)
      [⟨[37, 1111, 5001], pad64 2000000000000000000, 98⟩] []
      ⟨[37, 2222, 5002], [10, 11], 99⟩ rfl rfl rfl rfl rfl (by decide) (by decide)).1 rfl rfl,
   (short_data_log_folded_not_skipped envC1w envC1wNone 3 7 (some 8)
      [⟨[37, 1111, 5001], pad64 2000000000000000000, 98⟩] []
      ⟨[37, 2222, 5002], [10, 11], 99⟩ rfl rfl rfl rfl rfl
      (by decide) (by decide)).2.1 rfl rfl,
   (short_data_log_folded_not_skipped envC1w envC1wNone 3 7 (some 8)
      [⟨[37, 1111, 5001], pad64 2000000000000000000, 98⟩] []
      ⟨[37, 2222, 5002], [10, 11], 99⟩ rfl rfl rfl rfl rfl
      (by decide) (by decide)).2.2.1 2 4 rfl rfl rfl rfl rfl rfl,
   (short_data_log_folded_not_skipped envC1w envC1wNone 3 7 (some 8)
      [⟨[37, 1111, 5001], pad64 2000000000000000000, 98⟩] []
      ⟨[37, 2222, 5002], [10, 11], 99⟩ rfl rfl rfl rfl rfl
      (by decide) (by decide)).2.2.2 8 rfl rfl rfl rfl⟩

/- ### Claim C2: the Purchased-event backfill retry -/

/-- Claim C2 (amended): for a known `toBlock`, when the primary Purchased
query succeeds with zero logs, exactly one further query is issued, with
`fromBlock = max(0, toBlock - 2,500,000)` and the same `toBlock`, and the
aggregator then returns (no third query); when the primary query returns
at least one log, no retry is issued.  The retry window is wider than the
primary one whenever the primary `fromBlock` is defaulted (500,000 blocks
before `toBlock`), but not necessarily for a caller-supplied
`fromBlock`. -/
theorem packages_backfill_single_retry (env : ChainEnv) (pm : Nat) (fb? : Option Nat)
    (t : Nat) (lt : Option Nat)
    (hpm : env.packageManager = some pm)
    (hlt : latestProbe env = Except.ok lt) :
    (env.getLogs pm
        [env.keccak
          "Purchased(address,uint256,uint256,uint256,uint256,uint256,uint256,address,uint256)"]
        (fb?.getD (t - 500000)) (some t) = Except.ok [] →
      getPackagesStatsQueries env fb? (some t) =
        [(fb?.getD (t - 500000), some t), (t - 2500000, some t)]) ∧
    (∀ lg ls, env.getLogs pm
        [env.keccak
          "Purchased(address,uint256,uint256,uint256,uint256,uint256,uint256,address,uint256)"]
        (fb?.getD (t - 500000)) (some t) = Except.ok (lg :: ls) →
      getPackagesStatsQueries env fb? (some t) = [(fb?.getD (t - 500000), some t)]) ∧
    (fb? = none → t - 2500000 ≤ fb?.getD (t - 500000)) := by
  refine ⟨?_, ?_, ?_⟩
  · intro hlogs
    unfold getPackagesStatsQueries
    rw [hpm, hlt]
    simp only [Option.some_orElse, Option.getD_some]
    rw [hlogs]
    simp
  · intro lg ls hlogs
    unfold getPackagesStatsQueries
    rw [hpm, hlt]
    simp only [Option.some_orElse, Option.getD_some]
    rw [hlogs]
    simp
  · intro h
    subst h
    rw [Option.getD_none]
    omega

/-- C2 counterexample fixture: package manager bound, every log query
returning zero logs. -/
def envC2 : ChainEnv := { baseEnv with
  packageManager := some 3, usdtDecimalsCall := .ok 18 }

/-- Counterexample to C2 as stated: with a caller-supplied
`fromBlock = 0` and `toBlock = 3,000,000`, the retry after an empty
primary result starts at block 500,000 — strictly inside the primary
window [0, 3,000,000], so the retry window is narrower, not wider. -/
theorem packages_backfill_not_wider :
    getPackagesStatsQueries envC2 (some 0) (some 3000000) =
      [(0, some 3000000), (500000, some 3000000)] ∧
    ¬ ((500000 : Nat) ≤ 0) :=
  ⟨by decide, by decide⟩

/-- C2 witness fixture: a primary query that yields one log. -/
def envC2b : ChainEnv := { baseEnv with
  packageManager := some 3, usdtDecimalsCall := .ok 18,
  getLogs := fun _ _ _ _ => .ok [⟨[97, 0, 5], pad64 1000000, 50⟩] }

/-- Witness for the amended C2: an empty primary yields exactly the two
recorded queries; a non-empty primary yields exactly one; the default
window's retry is wider. -/
theorem packages_backfill_single_retry_witness :
    (getPackagesStatsQueries envC2 (some 100) (some 3000000) =
      [(100, some 3000000), (500000, some 3000000)]) ∧
    (getPackagesStatsQueries envC2b none (some 3000000) = [(2500000, some 3000000)]) ∧
    ((3000000 : Nat) - 2500000 ≤ (none : Option Nat).getD (3000000 - 500000)) :=
  ⟨(packages_backfill_single_retry envC2 3 (some 100) 3000000 none rfl rfl).1 rfl,
   (packages_backfill_single_retry envC2b 3 none 3000000 none rfl rfl).2.1
     ⟨[97, 0, 5], pad64 1000000, 50⟩ [] rfl,
   (packages_backfill_single_retry envC2 3 none 3000000 none rfl rfl).2.2 rfl⟩

end BlockCoop

namespace BlockCoop

/- ### Claims C8 and C10: gas spend -/

/-- `updateGas` never changes the key sequence of the accumulator. -/
theorem updateGas_keys (l : List (Nat × GasAcc)) (a wei : Nat) :
    (updateGas l a wei).map Prod.fst = l.map Prod.fst := by
  induction l with
  | nil => rfl
  | cons kv rest ih =>
      rcases kv with ⟨k, v⟩
      by_cases h : k = a <;> simp [updateGas, h, ih]

/-- Updating one sender's accumulator leaves other lookups unchanged. -/
theorem lookupA_updateGas_ne (l : List (Nat × GasAcc)) (a b wei : Nat) (h : a ≠ b) :
    lookupA (updateGas l a wei) b = lookupA l b := by
  have hba : ¬ b = a := fun hh => h hh.symm
  induction l with
  | nil => rfl
  | cons kv rest ih =>
      rcases kv with ⟨k, v⟩
      by_cases hk : k = a
      · subst hk
        simp [updateGas, lookupA, hba, fun hh : k = b => h hh]
      · by_cases hb : k = b <;> simp [updateGas, lookupA, hk, hb, ih, hba]

/-- A successful transaction step never changes the key sequence. -/
theorem gasTxStep_keys (env : ChainEnv) (s : List Nat) (acc acc2 : List (Nat × GasAcc))
    (tx : Tx) (h : gasTxStep env s acc tx = .ok acc2) :
    acc2.map Prod.fst = acc.map Prod.fst := by
  unfold gasTxStep at h
  split at h
  · cases h; rfl
  · split at h
    · split at h
      · cases h
      · cases h
        exact updateGas_keys acc _ _
    · cases h; rfl

/-- A successful transaction fold never changes the key sequence. -/
theorem foldlM_gasTxStep_keys (env : ChainEnv) (s : List Nat) (txs : List Tx) :
    ∀ acc acc2, txs.foldlM (gasTxStep env s) acc = .ok acc2 →
      acc2.map Prod.fst = acc.map Prod.fst := by
  induction txs with
  | nil =>
      intro acc acc2 h
      simp only [List.foldlM_nil] at h
      cases h; rfl
  | cons tx rest ih =>
      intro acc acc2 h
      simp only [List.foldlM_cons] at h
      rcases hstep : gasTxStep env s acc tx with e | acc1
      · rw [hstep] at h; cases h
      · rw [hstep] at h
        simp only [Except.bind, bind] at h
        rw [ih acc1 acc2 h, gasTxStep_keys env s acc acc1 tx hstep]

/-- A successful block step never changes the key sequence. -/
theorem gasBlockStep_keys (env : ChainEnv) (s : List Nat) (acc acc2 : List (Nat × GasAcc))
    (bn : Nat) (h : gasBlockStep env s acc bn = .ok acc2) :
    acc2.map Prod.fst = acc.map Prod.fst := by
  unfold gasBlockStep at h
  split at h
  · cases h
  · exact foldlM_gasTxStep_keys env s _ acc acc2 h

/-- A successful block scan never changes the key sequence. -/
theorem gasLoop_keys (env : ChainEnv) (s : List Nat) (bns : List Nat) :
    ∀ acc acc2, bns.foldlM (gasBlockStep env s) acc = .ok acc2 →
      acc2.map Prod.fst = acc.map Prod.fst := by
  induction bns with
  | nil =>
      intro acc acc2 h
      simp only [List.foldlM_nil] at h
      cases h; rfl
  | cons bn rest ih =>
      intro acc acc2 h
      simp only [List.foldlM_cons] at h
      rcases hstep : gasBlockStep env s acc bn with e | acc1
      · rw [hstep] at h; cases h
      · rw [hstep] at h
        simp only [Except.bind, bind] at h
        rw [ih acc1 acc2 h, gasBlockStep_keys env s acc acc1 bn hstep]

end BlockCoop

namespace BlockCoop

/-- A successful transaction step from a different sender leaves an
address's accumulator unchanged. -/
theorem lookupA_gasTxStep_nomatch (env : ChainEnv) (s : List Nat)
    (acc acc2 : List (Nat × GasAcc)) (a : Nat) (tx : Tx)
    (hne : tx.fromAddr ≠ some a) (h : gasTxStep env s acc tx = .ok acc2) :
    lookupA acc2 a = lookupA acc a := by
  unfold gasTxStep at h
  split at h
  · cases h; rfl
  · rename_i f heq
    have hfa : f ≠ a := fun hh => hne (by rw [heq, hh])
    split at h
    · split at h
      · cases h
      · cases h
        exact lookupA_updateGas_ne acc f a _ hfa
    · cases h; rfl

/-- A successful transaction fold with no matching sender leaves an
address's accumulator unchanged. -/
theorem lookupA_foldlM_gasTxStep_nomatch (env : ChainEnv) (s : List Nat) (a : Nat)
    (txs : List Tx) :
    ∀ acc acc2, (∀ tx ∈ txs, tx.fromAddr ≠ some a) →
      txs.foldlM (gasTxStep env s) acc = .ok acc2 →
      lookupA acc2 a = lookupA acc a := by
  induction txs with
  | nil =>
      intro acc acc2 _ h
      simp only [List.foldlM_nil] at h
      cases h; rfl
  | cons tx rest ih =>
      intro acc acc2 hne h
      simp only [List.foldlM_cons] at h
      rcases hstep : gasTxStep env s acc tx with e | acc1
      · rw [hstep] at h; cases h
      · rw [hstep] at h
        simp only [Except.bind, bind] at h
        rw [ih acc1 acc2 (fun t ht => hne t (List.mem_cons_of_mem tx ht)) h,
          lookupA_gasTxStep_nomatch env s acc acc1 a tx
            (hne tx (List.mem_cons_self tx rest)) hstep]

/-- A successful block step whose fetched transactions have no matching
sender leaves an address's accumulator unchanged. -/
theorem lookupA_gasBlockStep_nomatch (env : ChainEnv) (s : List Nat)
    (acc acc2 : List (Nat × GasAcc)) (a bn : Nat)
    (hne : ∀ txs, env.getBlock bn = Except.ok txs → ∀ tx ∈ txs, tx.fromAddr ≠ some a)
    (h : gasBlockStep env s acc bn = .ok acc2) :
    lookupA acc2 a = lookupA acc a := by
  unfold gasBlockStep at h
  rcases hgb : env.getBlock bn with e | txs
  · rw [hgb] at h; cases h
  · rw [hgb] at h
    exact lookupA_foldlM_gasTxStep_nomatch env s a txs acc acc2 (hne txs hgb) h

/-- A successful block scan with no matching transaction in any fetched
block leaves an address's accumulator unchanged. -/
theorem lookupA_gasLoop_nomatch (env : ChainEnv) (s : List Nat) (a : Nat)
    (bns : List Nat) :
    ∀ acc acc2,
      (∀ bn ∈ bns, ∀ txs, env.getBlock bn = Except.ok txs →
        ∀ tx ∈ txs, tx.fromAddr ≠ some a) →
      bns.foldlM (gasBlockStep env s) acc = .ok acc2 →
      lookupA acc2 a = lookupA acc a := by
  induction bns with
  | nil =>
      intro acc acc2 _ h
      simp only [List.foldlM_nil] at h
      cases h; rfl
  | cons bn rest ih =>
      intro acc acc2 hne h
      simp only [List.foldlM_cons] at h
      rcases hstep : gasBlockStep env s acc bn with e | acc1
      · rw [hstep] at h; cases h
      · rw [hstep] at h
        simp only [Except.bind, bind] at h
        rw [ih acc1 acc2 (fun b hb => hne b (List.mem_cons_of_mem bn hb)) h,
          lookupA_gasBlockStep_nomatch env s acc acc1 a bn
            (hne bn (List.mem_cons_self bn rest)) hstep]

/-- Every allow-listed address starts with a zeroed accumulator. -/
theorem lookupA_init_mem (addrSet : List Nat) (a : Nat) (h : a ∈ addrSet) :
    lookupA (addrSet.map (fun x => (x, (⟨0, 0⟩ : GasAcc)))) a = some ⟨0, 0⟩ := by
  induction addrSet with
  | nil => cases h
  | cons x rest ih =>
      by_cases hx : x = a
      · simp [lookupA, hx]
      · rcases List.mem_cons.mp h with h1 | h2
        · exact absurd h1.symm hx
        · simp [lookupA, hx, ih h2]

/-- The output row found for an address is its accumulator, converted to
BNB units. -/
theorem find?_map_gasEntry (l : List (Nat × GasAcc)) (a : Nat) (v : GasAcc)
    (h : lookupA l a = some v) :
    (l.map (fun kv => GasEntry.mk kv.1 ((kv.2.gasWei : ℚ) / 10 ^ 18) kv.2.txCount)).find?
      (fun e => e.address == a) = some ⟨a, (v.gasWei : ℚ) / 10 ^ 18, v.txCount⟩ := by
  induction l with
  | nil => simp [lookupA] at h
  | cons kv rest ih =>
      rcases kv with ⟨k, w⟩
      by_cases hk : k = a
      · subst hk
        have hv : w = v := by simpa [lookupA] using h
        subst hv
        simp only [List.map_cons, List.find?_cons]
        simp
      · have h' : lookupA rest a = some v := by simpa [lookupA, hk] using h
        simp only [List.map_cons, List.find?_cons]
        have hfalse : ((GasEntry.mk k ((w.gasWei : ℚ) / 10 ^ 18) w.txCount).address == a) =
            false := by simp [hk]
        rw [hfalse]
        exact ih h'

end BlockCoop

namespace BlockCoop

/-- `result.get('byAddress')` on a gas-spend result: absent on the error
marker. -/
def gasByAddressOf : GasResult → Option (List GasEntry)
  | .ok g => some g.byAddress
  | .err _ => none

/-- Claim C8 (amended): whenever the scan's block and receipt fetches
succeed — i.e. `get_gas_spend` returns its result structure rather than
the error marker — the structure contains one entry per supplied
(deduplicated) address, and an address with zero matching transactions in
the scanned range is reported as `{gasBNB: 0, txCount: 0}`, never
omitted. -/
theorem gas_spend_entry_per_address (env : ChainEnv) (addrs : List Nat)
    (fb tb maxb : Nat) (g : GasOk)
    (hok : getGasSpend env addrs (some fb) (some tb) maxb = GasResult.ok g) :
    g.byAddress.map GasEntry.address = addrs.dedup ∧
    (∀ a, a ∈ addrs →
      (∀ bn txs, gasScanLo fb tb maxb ≤ bn → bn ≤ tb →
        env.getBlock bn = Except.ok txs → ∀ tx ∈ txs, tx.fromAddr ≠ some a) →
      g.byAddress.find? (fun e => e.address == a) = some ⟨a, 0, 0⟩) := by
  have hok2 : (match (List.range' (gasScanLo fb tb maxb)
      (tb + 1 - gasScanLo fb tb maxb)).foldlM
      (gasBlockStep env addrs.dedup)
      (addrs.dedup.map (fun x => (x, (⟨0, 0⟩ : GasAcc)))) with
    | Except.error e => GasResult.err e
    | Except.ok totals => GasResult.ok
        { byAddress := totals.map (fun kv =>
            GasEntry.mk kv.1 ((kv.2.gasWei : ℚ) / 10 ^ 18) kv.2.txCount),
          fromBlock := fb, toBlock := tb,
          scannedBlocks := (List.range' (gasScanLo fb tb maxb)
            (tb + 1 - gasScanLo fb tb maxb)).length }) = GasResult.ok g := hok
  rcases hloop : (List.range' (gasScanLo fb tb maxb)
      (tb + 1 - gasScanLo fb tb maxb)).foldlM
      (gasBlockStep env addrs.dedup)
      (addrs.dedup.map (fun x => (x, (⟨0, 0⟩ : GasAcc)))) with e | totals
  · rw [hloop] at hok2
    simp at hok2
  · rw [hloop] at hok2
    simp only at hok2
    injection hok2 with hg
    subst hg
    constructor
    · rw [List.map_map]
      have hkeys := gasLoop_keys env addrs.dedup
        (List.range' (gasScanLo fb tb maxb) (tb + 1 - gasScanLo fb tb maxb))
        (addrs.dedup.map (fun x => (x, (⟨0, 0⟩ : GasAcc)))) totals hloop
      have hcomp : (GasEntry.address ∘ fun kv : Nat × GasAcc =>
          GasEntry.mk kv.1 ((kv.2.gasWei : ℚ) / 10 ^ 18) kv.2.txCount) = Prod.fst := rfl
      rw [hcomp, hkeys, List.map_map]
      have hid : (Prod.fst ∘ fun x : Nat => (x, (⟨0, 0⟩ : GasAcc))) = id := rfl
      rw [hid, List.map_id]
    · intro a ha hno
      have hmem : a ∈ addrs.dedup := List.mem_dedup.mpr ha
      have hinit := lookupA_init_mem addrs.dedup a hmem
      have hlookup := lookupA_gasLoop_nomatch env addrs.dedup a
        (List.range' (gasScanLo fb tb maxb) (tb + 1 - gasScanLo fb tb maxb))
        (addrs.dedup.map (fun x => (x, (⟨0, 0⟩ : GasAcc)))) totals
        (fun bn hbn txs htxs => by
          have h1 := (List.mem_range'_1.mp hbn).1
          have h2 := (List.mem_range'_1.mp hbn).2
          exact hno bn txs h1 (by omega) htxs)
        hloop
      have hlook : lookupA totals a = some ⟨0, 0⟩ := by rw [hlookup, hinit]
      have hfind := find?_map_gasEntry totals a _ hlook
      simpa using hfind

end BlockCoop

namespace BlockCoop

/-- A transaction step only reads the receipt of its transaction. -/
theorem gasTxStep_congr (env env2 : ChainEnv) (s : List Nat) (tx : Tx)
    (h : env2.getReceipt tx.hash = env.getReceipt tx.hash) :
    ∀ acc, gasTxStep env2 s acc tx = gasTxStep env s acc tx := by
  intro acc
  unfold gasTxStep
  rcases tx.fromAddr with _ | f
  · rfl
  · simp only [h]

/-- A transaction fold only reads the receipts of its transactions. -/
theorem foldlM_gasTxStep_congr (env env2 : ChainEnv) (s : List Nat) (txs : List Tx)
    (h : ∀ tx ∈ txs, env2.getReceipt tx.hash = env.getReceipt tx.hash) :
    ∀ acc, txs.foldlM (gasTxStep env2 s) acc = txs.foldlM (gasTxStep env s) acc := by
  induction txs with
  | nil => intro acc; rfl
  | cons tx rest ih =>
      intro acc
      simp only [List.foldlM_cons,
        gasTxStep_congr env env2 s tx (h tx (List.mem_cons_self tx rest))]
      rcases hstep : gasTxStep env s acc tx with e | acc1 <;>
        simp only [hstep, Except.bind, bind]
      exact ih (fun t ht => h t (List.mem_cons_of_mem tx ht)) acc1

/-- A block step only reads that block and the receipts of its fetched
transactions. -/
theorem gasBlockStep_congr (env env2 : ChainEnv) (s : List Nat) (bn : Nat)
    (hB : env2.getBlock bn = env.getBlock bn)
    (hR : ∀ txs, env.getBlock bn = Except.ok txs →
      ∀ tx ∈ txs, env2.getReceipt tx.hash = env.getReceipt tx.hash) :
    ∀ acc, gasBlockStep env2 s acc bn = gasBlockStep env s acc bn := by
  intro acc
  unfold gasBlockStep
  rw [hB]
  rcases hgb : env.getBlock bn with e | txs
  · rfl
  · exact foldlM_gasTxStep_congr env env2 s txs (hR txs hgb) acc

/-- The block scan only reads the scanned blocks and their receipts. -/
theorem gasLoop_congr (env env2 : ChainEnv) (s : List Nat) (bns : List Nat)
    (h : ∀ bn ∈ bns, env2.getBlock bn = env.getBlock bn ∧
      ∀ txs, env.getBlock bn = Except.ok txs →
        ∀ tx ∈ txs, env2.getReceipt tx.hash = env.getReceipt tx.hash) :
    ∀ acc, bns.foldlM (gasBlockStep env2 s) acc = bns.foldlM (gasBlockStep env s) acc := by
  induction bns with
  | nil => intro acc; rfl
  | cons bn rest ih =>
      intro acc
      simp only [List.foldlM_cons,
        gasBlockStep_congr env env2 s bn (h bn (List.mem_cons_self bn rest)).1
          (h bn (List.mem_cons_self bn rest)).2 acc]
      rcases hstep : gasBlockStep env s acc bn with e | acc1 <;>
        simp only [hstep, Except.bind, bind]
      exact ih (fun b hb => h b (List.mem_cons_of_mem bn hb)) acc1

/-- Claim C10: `get_gas_spend` inspects only blocks in
`[max(from_block, to_block - max_blocks), to_block]` — two environments
agreeing on that interval's blocks and receipts produce identical
results, transport failures included; and whenever it returns its result
structure, `scannedBlocks` is at most `max_blocks + 1` and the
`from_block` field reports the caller's original unclamped value. -/
theorem gas_spend_scan_clamped (env env2 : ChainEnv) (addrs : List Nat)
    (fb tb maxb : Nat)
    (hB : ∀ bn, gasScanLo fb tb maxb ≤ bn → bn ≤ tb → env2.getBlock bn = env.getBlock bn)
    (hR : ∀ bn txs, gasScanLo fb tb maxb ≤ bn → bn ≤ tb →
      env.getBlock bn = Except.ok txs →
      ∀ tx ∈ txs, env2.getReceipt tx.hash = env.getReceipt tx.hash) :
    (∀ g, getGasSpend env addrs (some fb) (some tb) maxb = GasResult.ok g →
      g.scannedBlocks ≤ maxb + 1 ∧ g.fromBlock = fb) ∧
    getGasSpend env2 addrs (some fb) (some tb) maxb =
      getGasSpend env addrs (some fb) (some tb) maxb := by
  constructor
  · intro g hok
    have hok2 : (match (List.range' (gasScanLo fb tb maxb)
        (tb + 1 - gasScanLo fb tb maxb)).foldlM
        (gasBlockStep env addrs.dedup)
        (addrs.dedup.map (fun x => (x, (⟨0, 0⟩ : GasAcc)))) with
      | Except.error e => GasResult.err e
      | Except.ok totals => GasResult.ok
          { byAddress := totals.map (fun kv =>
              GasEntry.mk kv.1 ((kv.2.gasWei : ℚ) / 10 ^ 18) kv.2.txCount),
            fromBlock := fb, toBlock := tb,
            scannedBlocks := (List.range' (gasScanLo fb tb maxb)
              (tb + 1 - gasScanLo fb tb maxb)).length }) = GasResult.ok g := hok
    rcases hloop : (List.range' (gasScanLo fb tb maxb)
        (tb + 1 - gasScanLo fb tb maxb)).foldlM
        (gasBlockStep env addrs.dedup)
        (addrs.dedup.map (fun x => (x, (⟨0, 0⟩ : GasAcc)))) with e | totals
    · rw [hloop] at hok2
      simp at hok2
    · rw [hloop] at hok2
      simp only at hok2
      injection hok2 with hg
      subst hg
      refine ⟨?_, rfl⟩
      show (List.range' (gasScanLo fb tb maxb) (tb + 1 - gasScanLo fb tb maxb)).length ≤
        maxb + 1
      rw [List.length_range']
      have hmax := le_max_right fb (tb - maxb)
      unfold gasScanLo
      omega
  · have hloopc := gasLoop_congr env env2 addrs.dedup
      (List.range' (gasScanLo fb tb maxb) (tb + 1 - gasScanLo fb tb maxb))
      (fun bn hbn => by
        have h1 := (List.mem_range'_1.mp hbn).1
        have h2 := (List.mem_range'_1.mp hbn).2
        exact ⟨hB bn h1 (by omega), fun txs htxs => hR bn txs h1 (by omega) htxs⟩)
      (addrs.dedup.map (fun x => (x, (⟨0, 0⟩ : GasAcc))))
    show (match (List.range' (gasScanLo fb tb maxb)
        (tb + 1 - gasScanLo fb tb maxb)).foldlM
        (gasBlockStep env2 addrs.dedup)
        (addrs.dedup.map (fun x => (x, (⟨0, 0⟩ : GasAcc)))) with
      | Except.error e => GasResult.err e
      | Except.ok totals => GasResult.ok
          { byAddress := totals.map (fun kv : Nat × GasAcc =>
              GasEntry.mk kv.1 ((kv.2.gasWei : ℚ) / 10 ^ 18) kv.2.txCount),
            fromBlock := fb, toBlock := tb,
            scannedBlocks := (List.range' (gasScanLo fb tb maxb)
              (tb + 1 - gasScanLo fb tb maxb)).length }) =
      (match (List.range' (gasScanLo fb tb maxb)
        (tb + 1 - gasScanLo fb tb maxb)).foldlM
        (gasBlockStep env addrs.dedup)
        (addrs.dedup.map (fun x => (x, (⟨0, 0⟩ : GasAcc)))) with
      | Except.error e => GasResult.err e
      | Except.ok totals => GasResult.ok
          { byAddress := totals.map (fun kv : Nat × GasAcc =>
              GasEntry.mk kv.1 ((kv.2.gasWei : ℚ) / 10 ^ 18) kv.2.txCount),
            fromBlock := fb, toBlock := tb,
            scannedBlocks := (List.range' (gasScanLo fb tb maxb)
              (tb + 1 - gasScanLo fb tb maxb)).length })
    rw [hloopc]

end BlockCoop

namespace BlockCoop

/-- Counterexample to C8 as stated: on a transport failure during the
scan, `get_gas_spend` returns the bare error marker — the `byAddress`
entries are omitted for every supplied address, not reported as zero
rows. -/
theorem gas_spend_error_omits_entries :
    getGasSpend baseEnv [5] (some 0) (some 0) 2000 = GasResult.err "rpc down" ∧
    gasByAddressOf (getGasSpend baseEnv [5] (some 0) (some 0) 2000) = none :=
  ⟨by decide, by decide⟩

/-- C8 witness fixture: every block fetch succeeds with no transactions,
every receipt fetch succeeds. -/
def envC8 : ChainEnv := { baseEnv with
  getBlock := fun _ => .ok [], getReceipt := fun _ => .ok ⟨0, none⟩ }

/-- The gas-spend result structure of the C8 witness fixture over blocks
[100, 101]. -/
def gC8 : GasOk := ⟨[⟨5, 0, 0⟩, ⟨7, 0, 0⟩], 100, 101, 2⟩

/-- Witness for the amended C8: on a successful scan with no transactions
at all, both allow-listed addresses are reported, and address 5 (zero
matches) as a zero row. -/
theorem gas_spend_entry_per_address_witness :
    gC8.byAddress.map GasEntry.address = ([5, 7] : List Nat).dedup ∧
    gC8.byAddress.find? (fun e => e.address == 5) = some ⟨5, 0, 0⟩ := by
  have hloop : (List.range' (gasScanLo 100 101 2000)
      (101 + 1 - gasScanLo 100 101 2000)).foldlM
      (gasBlockStep envC8 ([5, 7] : List Nat).dedup)
      (([5, 7] : List Nat).dedup.map (fun x => (x, (⟨0, 0⟩ : GasAcc)))) =
      Except.ok [(5, ⟨0, 0⟩), (7, ⟨0, 0⟩)] := by rfl
  have hok : getGasSpend envC8 [5, 7] (some 100) (some 101) 2000 = GasResult.ok gC8 := by
    show (match (List.range' (gasScanLo 100 101 2000)
        (101 + 1 - gasScanLo 100 101 2000)).foldlM
        (gasBlockStep envC8 ([5, 7] : List Nat).dedup)
        (([5, 7] : List Nat).dedup.map (fun x => (x, (⟨0, 0⟩ : GasAcc)))) with
      | Except.error e => GasResult.err e
      | Except.ok totals => GasResult.ok
          { byAddress := totals.map (fun kv : Nat × GasAcc =>
              GasEntry.mk kv.1 ((kv.2.gasWei : ℚ) / 10 ^ 18) kv.2.txCount),
            fromBlock := 100, toBlock := 101,
            scannedBlocks := (List.range' (gasScanLo 100 101 2000)
              (101 + 1 - gasScanLo 100 101 2000)).length }) = GasResult.ok gC8
    rw [hloop]
    simp only [List.map_cons, List.map_nil, gC8]
    norm_num
    decide
  have h := gas_spend_entry_per_address envC8 [5, 7] 100 101 2000 gC8 hok
  refine ⟨h.1, h.2 5 (by decide) ?_⟩
  intro bn txs h1 h2 htxs tx htx
  have h0 : (Except.ok ([] : List Tx) : Except String (List Tx)) = Except.ok txs := by
    rw [← htxs]
    rfl
  injection h0 with h0e
  rw [← h0e] at htx
  cases htx

/-- C10 witness fixture: empty blocks, successful fetches. -/
def envC10a : ChainEnv := { baseEnv with
  getBlock := fun _ => .ok [], getReceipt := fun _ => .ok ⟨0, none⟩ }

/-- C10 witness fixture: an environment differing from `envC10a` only at
block 50,000 — outside the scanned interval [0, 10]. -/
def envC10b : ChainEnv := { baseEnv with
  getBlock := fun bn => if bn = 50000 then .ok [⟨some 9, 1, 1⟩] else .ok [],
  getReceipt := fun _ => .ok ⟨0, none⟩ }

/-- Witness for C10 at a concrete range, with a second environment that
differs only outside the scanned interval. -/
theorem gas_spend_scan_clamped_witness :
    (∀ g, getGasSpend envC10a [5] (some 0) (some 10) 2000 = GasResult.ok g →
      g.scannedBlocks ≤ 2000 + 1 ∧ g.fromBlock = 0) ∧
    getGasSpend envC10b [5] (some 0) (some 10) 2000 =
      getGasSpend envC10a [5] (some 0) (some 10) 2000 := by
  refine gas_spend_scan_clamped envC10a envC10b [5] 0 10 2000 ?_ ?_
  · intro bn h1 h2
    show (if bn = 50000 then Except.ok [(⟨some 9, 1, 1⟩ : Tx)] else Except.ok []) =
      Except.ok []
    rw [if_neg (by omega)]
  · intro bn txs h1 h2 htxs tx htx
    rfl

end BlockCoop
